import Mathlib

/-! # tg-servmonitoringbot: the live-report task registry and the background watchers

A shallow embedding of `main.go`.  The global `tasks` map, the functions that
mutate it (`stopAndDelete`, `startMonitoring`, the deferred self-removal of a
refresh goroutine), the refresh tick, `Bot.EditMessage`, `trimMessage`, the
three watchers (`monitorReboot`, `monitorDirs`, `monitorUnits`) and their
samplers (`systemdUnitStatus`, `countProcessesByDir`) are written as pure
functions over explicit state; calls that leave the process (sending, editing
and deleting messages, cancelling a context, writing a log line) are recorded
as a list of `Effect`s in program order, and everything read from outside (the
formatter results, the answers of the Telegram API, the sampled values, the
order in which a range over the map of allowed users visits its keys) is an
argument.
-/

namespace ServMonitor

/-! ## Data model -/

/-- Chat and user identifiers (`int64` in the source). -/
abbrev ChatID := Int

/-- The struct behind a `*UpdateTask`.  `ptr` is the address of the allocation:
the source compares tasks by pointer (`tasks[chatID] == task`), and the cancel
function stored in the struct belongs to exactly this allocation. -/
structure UpdateTask where
  ptr : Nat
  messageID : Int
deriving DecidableEq, Repr

/-- The global `tasks` map; a key that is not in the map reads as `nil`. -/
abbrev Tasks := ChatID → Option UpdateTask

/-- The map literal `map[int64]*UpdateTask{}`. -/
def Tasks.empty : Tasks := fun _ => none

/-- Go `delete(tasks, chatID)`. -/
def Tasks.delete (tasks : Tasks) (chatID : ChatID) : Tasks :=
  fun c => if c = chatID then none else tasks c

/-- Go `tasks[chatID] = task`. -/
def Tasks.set (tasks : Tasks) (chatID : ChatID) (task : UpdateTask) : Tasks :=
  fun c => if c = chatID then some task else tasks c

/-- What the code does to the outside world, in program order. -/
inductive Effect where
  /-- The call `task.cancel()` on the task allocated at `ptr`. -/
  | cancel (ptr : Nat)
  /-- The call `bot.DeleteMessage(chatID, messageID)`; its result is dropped. -/
  | deleteMessage (chatID : ChatID) (messageID : Int)
  /-- The call `bot.SendMessage(chatID, text)`. -/
  | sendMessage (chatID : ChatID) (text : String)
  /-- The call `bot.EditMessage(chatID, messageID, text)`. -/
  | editMessage (chatID : ChatID) (messageID : Int) (text : String)
  /-- A call of the report function (`formatStatus`, `formatNetwork`, ...). -/
  | report
  /-- The registration `tasks[chatID] = task` of `startMonitoring` together
  with the start of its goroutine. -/
  | install (chatID : ChatID) (ptr : Nat)
  /-- The refresh loop of the task allocated at `ptr` has returned. -/
  | loopExit (ptr : Nat)
  /-- A line written with `log.Printf`. -/
  | log (line : String)
deriving DecidableEq, Repr

/-! ## The registry operations -/

/-- The function `stopAndDelete`: under the lock, read the entry and delete it
when it is there; after the lock, cancel it and delete its message. -/
def stopAndDelete (tasks : Tasks) (chatID : ChatID) : Tasks × List Effect :=
  match tasks chatID with
  | some task =>
      (tasks.delete chatID, [Effect.cancel task.ptr, Effect.deleteMessage chatID task.messageID])
  | none => (tasks, [])

/-- The registration part of `startMonitoring`: a task is allocated (at
`ptr`), bound to `messageID` and stored under `chatID`; the goroutine starts. -/
def startMonitoring (tasks : Tasks) (ptr : Nat) (chatID : ChatID) (messageID : Int) :
    Tasks × List Effect :=
  (tasks.set chatID { ptr := ptr, messageID := messageID }, [Effect.install chatID ptr])

/-- The deferred function of the goroutine of `startMonitoring`:
`if tasks[chatID] == task { delete(tasks, chatID) }`, a pointer comparison. -/
def selfRemove (tasks : Tasks) (chatID : ChatID) (task : UpdateTask) : Tasks :=
  match tasks chatID with
  | some cur => if cur.ptr = task.ptr then tasks.delete chatID else tasks
  | none => tasks

/-- What the main loop reads from outside while it handles one command: the
results of the three formatters and the answer of `bot.SendMessage`. -/
structure CommandEnv where
  formatStatus : Except String String
  formatNetwork : Except String String
  formatProcesses : Except String String
  sendMessage : ChatID → String → Except String Int

/-- The body shared by the `status`, `network` and `process` cases of the
switch in `main`: `stopAndDelete`, the first report, the first send, and
`startMonitoring` when both succeeded.  `name` is the word of the log lines,
`newPtr` the address the next allocation gets. -/
def startCase (tasks : Tasks) (newPtr : Nat) (chatID : ChatID) (name : String)
    (format : Except String String) (send : ChatID → String → Except String Int) :
    Tasks × List Effect :=
  let (tasks1, eff1) := stopAndDelete tasks chatID
  match format with
  | Except.error err => (tasks1, eff1 ++ [Effect.report, Effect.log (name ++ " error: " ++ err)])
  | Except.ok text =>
    match send chatID text with
    | Except.error err =>
        (tasks1, eff1 ++ [Effect.report, Effect.sendMessage chatID text,
          Effect.log ("send " ++ name ++ " error: " ++ err)])
    | Except.ok msgID =>
        let (tasks2, eff2) := startMonitoring tasks1 newPtr chatID msgID
        (tasks2, eff1 ++ [Effect.report, Effect.sendMessage chatID text] ++ eff2)

/-- The `switch cmd` of the main loop for one update of an allowed user. -/
def handleCommand (tasks : Tasks) (newPtr : Nat) (chatID : ChatID) (cmd : String)
    (env : CommandEnv) : Tasks × List Effect :=
  if cmd = "status" then
    startCase tasks newPtr chatID "status" env.formatStatus env.sendMessage
  else if cmd = "network" then
    startCase tasks newPtr chatID "network" env.formatNetwork env.sendMessage
  else if cmd = "process" then
    startCase tasks newPtr chatID "process" env.formatProcesses env.sendMessage
  else if cmd = "stop" then
    stopAndDelete tasks chatID
  else (tasks, [])

/-! ## The registry as a transition system -/

/-- The registry, the next free address, and everything done so far. -/
structure World where
  tasks : Tasks
  nextPtr : Nat
  trace : List Effect

/-- The state at process start: `tasks = map[int64]*UpdateTask{}`. -/
def World.init : World := { tasks := Tasks.empty, nextPtr := 0, trace := [] }

/-- The two kinds of events that touch the registry. -/
inductive Event where
  /-- The main loop handles the command `cmd` of chat `chatID`. -/
  | command (chatID : ChatID) (cmd : String) (env : CommandEnv)
  /-- The refresh loop of `task`, started for `chatID`, returns and its
  deferred function runs. -/
  | loopExit (chatID : ChatID) (task : UpdateTask)

/-- One event.  A command allocates at `nextPtr` when it installs a task.  A
loop can only exit when `startMonitoring` has started it, and only once; an
exit event for any other task changes nothing. -/
def World.step (w : World) : Event → World
  | Event.command chatID cmd env =>
      let (tasks1, eff) := handleCommand w.tasks w.nextPtr chatID cmd env
      { tasks := tasks1, nextPtr := w.nextPtr + 1, trace := w.trace ++ eff }
  | Event.loopExit chatID task =>
      if Effect.install chatID task.ptr ∈ w.trace ∧ Effect.loopExit task.ptr ∉ w.trace then
        { tasks := selfRemove w.tasks chatID task, nextPtr := w.nextPtr,
          trace := w.trace ++ [Effect.loopExit task.ptr] }
      else w

/-- The state after a sequence of events, from the empty registry. -/
def World.run (evs : List Event) : World := evs.foldl World.step World.init

/-- The task at `ptr` was started for `chatID` at some point. -/
def World.startedFor (w : World) (chatID : ChatID) (ptr : Nat) : Prop :=
  Effect.install chatID ptr ∈ w.trace

/-- The task at `ptr` has neither been cancelled nor has its loop exited. -/
def World.live (w : World) (ptr : Nat) : Prop :=
  Effect.cancel ptr ∉ w.trace ∧ Effect.loopExit ptr ∉ w.trace

/-! ## Strings -/

/-- Go `strings.Contains`: `substr` occurs in `s` as a contiguous block. -/
def stringsContains (s substr : String) : Bool :=
  s.toList.tails.any (fun t => substr.toList.isPrefixOf t)

/-- Go `strings.ToLower`: every rune goes through `unicode.ToLower`, the
case table of the standard library, which is the argument `lower`. -/
def stringsToLower (lower : Char → Char) (s : String) : String :=
  String.mk (s.toList.map lower)

/-! ## The Telegram client, as far as the refresh loop sees it -/

/-- The fields of a decoded `APIResponse[bool]` that the code reads. -/
structure APIResponse where
  ok : Bool
  description : String
deriving DecidableEq, Repr

/-- What one HTTP exchange of `doRequest` can come to. -/
inductive HttpOutcome where
  /-- Building or sending the request, or reading the body, failed with this
  error text. -/
  | transportError (text : String)
  /-- A response arrived; `decoded` is what `json.Unmarshal` makes of the body. -/
  | response (statusCode : Int) (body : String) (decoded : Except String APIResponse)

/-- The function `Bot.doRequest`: an error for a transport failure, for a
status outside 200..299 (`"telegram error: " + body`) and for a body that does
not decode; the decoded response otherwise. -/
def doRequest : HttpOutcome → Except String APIResponse
  | HttpOutcome.transportError text => Except.error text
  | HttpOutcome.response statusCode body decoded =>
      if statusCode < 200 ∨ statusCode ≥ 300 then Except.error ("telegram error: " ++ body)
      else decoded

/-- The function `Bot.EditMessage`, given the outcome of its HTTP exchange:
`none` is the `nil` error. -/
def EditMessage (outcome : HttpOutcome) : Option String :=
  match doRequest outcome with
  | Except.error err =>
      if stringsContains err "message is not modified" then none else some err
  | Except.ok resp =>
      if !resp.ok then some ("telegram: " ++ resp.description) else none

/-- The function `shouldStopOnEditError`; `none` is the `nil` error. -/
def shouldStopOnEditError (lower : Char → Char) : Option String → Bool
  | none => false
  | some err =>
      let msg := stringsToLower lower err
      stringsContains msg "message to edit not found" ||
        stringsContains msg "message can\x27t be edited" ||
        stringsContains msg "message is too old"

/-! ## The refresh loop of `startMonitoring` -/

/-- The constant `maxUpdateDuration = 10 * time.Minute`, in nanoseconds. -/
def maxUpdateDuration : Int := 10 * (60 * 1000000000)

/-- The two states of a refresh loop. -/
inductive LoopState where
  | running
  | stopped
deriving DecidableEq, Repr

/-- What one tick of the refresh loop reads from outside: the clock
(nanoseconds), the result of `updateFn()`, and the error `bot.EditMessage`
returns for a text (`none` is `nil`). -/
structure TickEnv where
  now : Int
  updateFn : Except String String
  editMessage : ChatID → Int → String → Option String

/-- The body of `case <-ticker.C:` in the loop of `startMonitoring`.
`stopped` is a `return`, `running` a `continue` or the end of the body. -/
def refreshTick (lower : Char → Char) (chatID : ChatID) (messageID : Int) (deadline : Int)
    (env : TickEnv) : LoopState × List Effect :=
  if env.now > deadline then (LoopState.stopped, [])
  else
    match env.updateFn with
    | Except.error err =>
        (LoopState.running, [Effect.report, Effect.log ("update error: " ++ err)])
    | Except.ok text =>
      match env.editMessage chatID messageID text with
      | some err =>
          if shouldStopOnEditError lower (some err) then
            (LoopState.stopped, [Effect.report, Effect.editMessage chatID messageID text])
          else
            (LoopState.running, [Effect.report, Effect.editMessage chatID messageID text,
              Effect.log ("edit error: " ++ err)])
      | none => (LoopState.running, [Effect.report, Effect.editMessage chatID messageID text])

/-- Which case of the `select` fires. -/
inductive SelectCase where
  | ctxDone
  | tick
deriving DecidableEq, Repr

/-- One round of the `for { select { ... } }` of the goroutine that
`startMonitoring` starts at time `start`, with the deferred self-removal run
when the loop returns.  The deadline is `start + maxUpdateDuration`. -/
def loopIteration (lower : Char → Char) (tasks : Tasks) (chatID : ChatID) (task : UpdateTask)
    (start : Int) (sel : SelectCase) (env : TickEnv) : Tasks × LoopState × List Effect :=
  let r : LoopState × List Effect :=
    match sel with
    | SelectCase.ctxDone => (LoopState.stopped, [])
    | SelectCase.tick => refreshTick lower chatID task.messageID (start + maxUpdateDuration) env
  match r.1 with
  | LoopState.stopped =>
      (selfRemove tasks chatID task, LoopState.stopped, r.2 ++ [Effect.loopExit task.ptr])
  | LoopState.running => (tasks, LoopState.running, r.2)

/-! ## The watchers -/

/-- The loop `for userID := range allowed { _, _ = bot.SendMessage(userID, msg) }`;
`allowed` lists the keys of the map in the order this range visits them. -/
def broadcast (allowed : List ChatID) (msg : String) : List Effect :=
  allowed.map (fun userID => Effect.sendMessage userID msg)

/-- The map `allowed` as a watcher sees it.  `keys` are its keys, each once.
`range sent` is the order in which a loop `for userID := range allowed` visits
them when `sent` is what the watcher has sent so far: Go starts every range
over a map at a place of its own, so two loops of one run need not visit the
keys in the same order, and every loop visits every key once. -/
structure AllowedMap where
  keys : List ChatID
  range : List Effect → List ChatID
  nodup : keys.Nodup
  range_perm : ∀ sent, (range sent).Perm keys

/-- Go map assignment `m[k] = v` on a map read as a function. -/
def mapSet {α : Type} (m : String → α) (k : String) (v : α) : String → α :=
  fun x => if x = k then v else m x

/-- The text of the alert of `monitorDirs` when the processes are gone. -/
def dirGoneMsg (d : String) : String :=
  "‚ö†Ô∏è <b>–ù–µ—Ç –ø—Ä–æ—Ü–µ—Å—Å–æ–≤ –∏–∑ –∫–∞—Ç–∞–ª–æ–≥–∞</b>\n\n<code>" ++ d ++ "</code>"

/-- The text of the notice of `monitorDirs` when processes are back; `%d`
prints the count in decimal. -/
def dirBackMsg (d : String) (current : Int) : String :=
  "‚úÖ <b>–ü—Ä–æ—Ü–µ—Å—Å—ã —Å–Ω–æ–≤–∞ –ø–æ—è–≤–∏–ª–∏—Å—å</b>\n\n<code>" ++ d ++ "</code>\n–ö–æ–ª–∏—á–µ—Å—Ç–≤–æ: " ++ toString current

/-- The first loop of `monitorDirs`: `prev[d] = -1` for every watched directory,
on the empty map (whose missing keys read 0). -/
def monitorDirsInit (dirs : List String) : String → Int :=
  dirs.foldl (fun prev d => mapSet prev d (-1)) (fun _ => 0)

/-- The body of `for _, d := range dirs` in `monitorDirs`, for one directory;
`counts` is the map `countProcessesByDir` returned for this tick. -/
def monitorDirsStep (allowed : AllowedMap) (counts : String → Int)
    (st : (String → Int) × List Effect) (d : String) : (String → Int) × List Effect :=
  let prev := st.1
  let current := counts d
  let last := prev d
  let eff :=
    if last ≥ 0 then
      if last > 0 ∧ current = 0 then broadcast (allowed.range st.2) (dirGoneMsg d)
      else if last = 0 ∧ current > 0 then
        broadcast (allowed.range st.2) (dirBackMsg d current)
      else []
    else []
  (mapSet prev d current, st.2 ++ eff)

/-- One tick of `monitorDirs`: every directory in turn, against one `counts`;
`st` holds the baselines and what was sent before the tick. -/
def monitorDirsTick (allowed : AllowedMap) (dirs : List String)
    (st : (String → Int) × List Effect) (counts : String → Int) :
    (String → Int) × List Effect :=
  dirs.foldl (monitorDirsStep allowed counts) st

/-- The function `monitorDirs` over the ticks whose `countProcessesByDir`
results are `ticks`: the final baseline and everything sent. -/
def monitorDirs (allowed : AllowedMap) (dirs : List String) (ticks : List (String → Int)) :
    (String → Int) × List Effect :=
  ticks.foldl (monitorDirsTick allowed dirs) (monitorDirsInit dirs, [])

/-- The text of the alert of `monitorUnits` for a unit that is not active. -/
def unitDownMsg (u status : String) : String :=
  "‚ö†Ô∏è <b>Unit –Ω–µ –∞–∫—Ç–∏–≤–µ–Ω</b>\n\n<code>" ++ u ++ "</code>\n–°—Ç–∞—Ç—É—Å: " ++ status

/-- The text of the notice of `monitorUnits` for a unit that is active again. -/
def unitUpMsg (u : String) : String :=
  "‚úÖ <b>Unit —Å–Ω–æ–≤–∞ –∞–∫—Ç–∏–≤–µ–Ω</b>\n\n<code>" ++ u ++ "</code>"

/-- The first loop of `monitorUnits`: `prev[u] = ""` for every watched unit. -/
def monitorUnitsInit (units : List String) : String → String :=
  units.foldl (fun prev u => mapSet prev u "") (fun _ => "")

/-- The body of `for _, u := range units` in `monitorUnits`, for one unit;
`status` is what `systemdUnitStatus(u)` returned in this round. -/
def monitorUnitsStep (allowed : AllowedMap) (st : (String → String) × List Effect)
    (sample : String × String) : (String → String) × List Effect :=
  let prev := st.1
  let u := sample.1
  let status := sample.2
  let last := prev u
  let eff :=
    if last ≠ "" ∧ status ≠ last then
      if status ≠ "active" then broadcast (allowed.range st.2) (unitDownMsg u status)
      else broadcast (allowed.range st.2) (unitUpMsg u)
    else []
  (mapSet prev u status, st.2 ++ eff)

/-- One tick of `monitorUnits`; `status i` is what the call of
`systemdUnitStatus` for the unit at position `i` of `units` returned, and `st`
holds the baselines and what was sent before the tick. -/
def monitorUnitsTick (allowed : AllowedMap) (units : List String)
    (st : (String → String) × List Effect) (status : Nat → String) :
    (String → String) × List Effect :=
  (units.enum.map (fun iu => (iu.2, status iu.1))).foldl (monitorUnitsStep allowed) st

/-- The function `monitorUnits` over the ticks whose status answers are
`ticks`: the final baseline and everything sent. -/
def monitorUnits (allowed : AllowedMap) (units : List String) (ticks : List (Nat → String)) :
    (String → String) × List Effect :=
  ticks.foldl (monitorUnitsTick allowed units) (monitorUnitsInit units, [])

/-- A `time.Time` as `readBootTime` produces it: whole seconds since the Unix
epoch, and whether the location pointer is set (`time.Unix` sets it to
`Local`; the zero value `time.Time{}` has none).  Go compares the structs
field by field. -/
structure Time where
  unix : Int
  hasLoc : Bool
deriving DecidableEq, Repr

/-- The zero value `time.Time{}`: January 1, year 1, 00:00:00 UTC. -/
def Time.zero : Time := { unix := -62135596800, hasLoc := false }

/-- Go `time.Unix(sec, 0)`. -/
def Time.Unix (sec : Int) : Time := { unix := sec, hasLoc := true }

/-- Go `Time.IsZero`: the instant is January 1, year 1, 00:00:00 UTC. -/
def Time.IsZero (t : Time) : Bool := t.unix == -62135596800

/-- The text of the reboot alert; `format` is `Time.Format("2006-01-02 15:04:05")`. -/
def rebootMsg (format : Time → String) (current : Time) : String :=
  "üîÑ <b>–û–±–Ω–∞—Ä—É–∂–µ–Ω–∞ –ø–µ—Ä–µ–∑–∞–≥—Ä—É–∑–∫–∞ —Å–µ—Ä–≤–µ—Ä–∞!</b>\n\n" ++
    "‚è± –í—Ä–µ–º—è –ø–µ—Ä–µ–∑–∞–≥—Ä—É–∑–∫–∏: " ++ format current

/-- The local variables of `monitorReboot`. -/
structure RebootState where
  lastBoot : Time
  first : Bool
deriving DecidableEq, Repr

/-- The two statements before the loop of `monitorReboot`; `boot` is what
`readBootTime()` returned. -/
def monitorRebootInit (boot : Time) : RebootState := { lastBoot := boot, first := true }

/-- One round of the loop of `monitorReboot`; `current` is what
`readBootTime()` returned after the sleep. -/
def monitorRebootStep (format : Time → String) (allowed : AllowedMap)
    (st : RebootState × List Effect) (current : Time) : RebootState × List Effect :=
  let s := st.1
  if current.IsZero then st
  else if current ≠ s.lastBoot then
    let eff :=
      if !s.first then broadcast (allowed.range st.2) (rebootMsg format current) else []
    ({ lastBoot := current, first := false }, st.2 ++ eff)
  else ({ lastBoot := s.lastBoot, first := false }, st.2)

/-- The function `monitorReboot` over the boot time read at start and the
ones read in the loop: the final variables and everything sent. -/
def monitorReboot (format : Time → String) (allowed : AllowedMap) (boot : Time)
    (samples : List Time) : RebootState × List Effect :=
  samples.foldl (monitorRebootStep format allowed) (monitorRebootInit boot, [])

/-! ## Sampling: `systemdUnitStatus` and `countProcessesByDir` -/

/-- Go `unicode.IsSpace`: tab, line feed, vertical tab, form feed, carriage
return, space, U+0085, U+00A0, and the other code points with the White_Space
property. -/
def unicodeIsSpace (c : Char) : Bool :=
  (9 ≤ c.toNat && c.toNat ≤ 13) || c.toNat = 32 || c.toNat = 0x85 || c.toNat = 0xA0 ||
    c.toNat = 0x1680 || (0x2000 ≤ c.toNat && c.toNat ≤ 0x200A) || c.toNat = 0x2028 ||
    c.toNat = 0x2029 || c.toNat = 0x202F || c.toNat = 0x205F || c.toNat = 0x3000

/-- Go `strings.TrimSpace`: the string without its leading and trailing white
space. -/
def stringsTrimSpace (s : String) : String :=
  String.mk ((s.toList.dropWhile unicodeIsSpace).reverse.dropWhile unicodeIsSpace).reverse

/-- The error of `exec.Cmd.Output`. -/
inductive ExecErr where
  /-- An `*exec.ExitError`: the command ran and exited with a non-zero status;
  `stderr` is the standard error that `Output` captured into it. -/
  | exitError (stderr : String)
  /-- Any other error, such as a command that could not be started. -/
  | other
deriving DecidableEq, Repr

/-- What `exec.Command("systemctl", "is-active", unit).Output()` returns: the
captured standard output and the error, `none` being `nil`. -/
structure CommandOutcome where
  out : String
  err : Option ExecErr
deriving DecidableEq, Repr

/-- The function `systemdUnitStatus`, given what the command returned. -/
def systemdUnitStatus (r : CommandOutcome) : String :=
  let early : Option String :=
    match r.err with
    | some (ExecErr.exitError stderr) =>
        let text := stringsTrimSpace stderr
        if text ≠ "" then some text else none
    | _ => none
  match early with
  | some text => text
  | none =>
      let status := stringsTrimSpace r.out
      if status = "" then "unknown" else status

/-- An `os.DirEntry` of `/proc`, as far as the code looks at it. -/
structure DirEntry where
  name : String
  isDir : Bool
deriving DecidableEq, Repr

/-- What `countProcessesByDir` reads from outside: `os.ReadDir("/proc")`
(`none` is an error), `strconv.Atoi` on an entry name (`none` is an error),
`os.Readlink` on `/proc/<pid>/exe` and `os.ReadFile` on `/proc/<pid>/cmdline`
(`none` is an error). -/
structure ProcFS where
  readDir : Option (List DirEntry)
  atoi : String → Option Int
  readlink : Int → Option String
  readFile : Int → Option String

/-- The function `readCmdline`: empty on a read error or an empty file, else
the content with every NUL replaced by a space. -/
def readCmdline (fs : ProcFS) (pid : Int) : String :=
  match fs.readFile pid with
  | none => ""
  | some data =>
      if data.length = 0 then ""
      else String.mk (data.toList.map (fun c => if c = Char.ofNat 0 then Char.ofNat 32 else c))

/-- The body of `for _, entry := range entries` in `countProcessesByDir`. -/
def countProcessesByDirEntry (fs : ProcFS) (dirs : List String) (counts : String → Int)
    (entry : DirEntry) : String → Int :=
  if !entry.isDir then counts
  else
    match fs.atoi entry.name with
    | none => counts
    | some pid =>
        let exePath := (fs.readlink pid).getD ""
        let cmdline := readCmdline fs pid
        if exePath = "" ∧ cmdline = "" then counts
        else
          dirs.foldl
            (fun counts d =>
              if (exePath ≠ "" ∧ stringsContains exePath d = true) ∨
                  (cmdline ≠ "" ∧ stringsContains cmdline d = true) then
                mapSet counts d (counts d + 1)
              else counts)
            counts

/-- The function `countProcessesByDir`: every directory starts at 0; when
`/proc` cannot be listed these zeros are the result. -/
def countProcessesByDir (fs : ProcFS) (dirs : List String) : String → Int :=
  let counts := dirs.foldl (fun counts d => mapSet counts d 0) (fun _ => 0)
  match fs.readDir with
  | none => counts
  | some entries => entries.foldl (countProcessesByDirEntry fs dirs) counts

/-! ## Outbound text: `trimMessage` and the requests -/

/-- The constant `telegramMaxRunes`. -/
def telegramMaxRunes : Nat := 3800

/-- The string `trimMessage` appends to a text it cuts: a line feed and the
marker. -/
def trimMarker : String := "\n‚Ä¶"

/-- The function `trimMessage`; the runes of a string are its characters. -/
def trimMessage (text : String) : String :=
  let runes := text.toList
  if runes.length ≤ telegramMaxRunes then text
  else String.mk (runes.take telegramMaxRunes) ++ trimMarker

/-- The struct `sendMessageRequest`. -/
structure sendMessageRequest where
  ChatID : Int
  Text : String
  ParseMode : String
deriving DecidableEq, Repr

/-- The struct `editMessageRequest`. -/
structure editMessageRequest where
  ChatID : Int
  MessageID : Int
  Text : String
  ParseMode : String
deriving DecidableEq, Repr

/-- The payload `Bot.SendMessage` hands to `doRequest`. -/
def SendMessagePayload (chatID : ChatID) (text : String) : sendMessageRequest :=
  { ChatID := chatID, Text := trimMessage text, ParseMode := "HTML" }

/-- The payload `Bot.EditMessage` hands to `doRequest`. -/
def EditMessagePayload (chatID : ChatID) (messageID : Int) (text : String) :
    editMessageRequest :=
  { ChatID := chatID, MessageID := messageID, Text := trimMessage text, ParseMode := "HTML" }

/-! ## The fan-out with the answers in view -/

/-- The loop `for userID := range allowed { _, _ = bot.SendMessage(userID, msg) }`
with the answers of `bot.SendMessage` as an argument: the calls made, and next
to them the answers the loop drops. -/
def broadcastLoop (send : ChatID → String → Except String Int) (allowed : List ChatID)
    (msg : String) : List Effect × List (ChatID × Except String Int) :=
  allowed.foldl
    (fun st userID =>
      (st.1 ++ [Effect.sendMessage userID msg], st.2 ++ [(userID, send userID msg)]))
    ([], [])

/-! ## Example inputs -/

/-- The registry of the examples: chat 7 shows message 42 through the task at
address 3, chat 8 shows message 43 through the task at address 4. -/
def exampleTasks : Tasks := (Tasks.empty.set 7 { ptr := 3, messageID := 42 }).set 8
  { ptr := 4, messageID := 43 }

/-- A tick of the examples: one second after the start, the report is
produced and the edit goes through. -/
def exampleTickEnv : TickEnv :=
  { now := 1000000000, updateFn := Except.ok "report", editMessage := fun _ _ _ => none }

/-- The surroundings of the examples: every formatter produces `"report"` and
every send is answered with message id 100. -/
def exampleEnv : CommandEnv :=
  { formatStatus := Except.ok "report", formatNetwork := Except.ok "report",
    formatProcesses := Except.ok "report", sendMessage := fun _ _ => Except.ok 100 }

/-- What holds of the registry and the trace in every reachable state:
addresses in the trace are below `nextPtr`, an address is started for one chat
only, an entry of the registry was started for its chat and is neither
cancelled nor exited, and a started task that is not the entry of its chat is
cancelled or exited. -/
structure World.Inv (w : World) : Prop where
  started_lt : ∀ c p, Effect.install c p ∈ w.trace → p < w.nextPtr
  cancel_lt : ∀ p, Effect.cancel p ∈ w.trace → p < w.nextPtr
  exit_lt : ∀ p, Effect.loopExit p ∈ w.trace → p < w.nextPtr
  chat_unique : ∀ c d p, Effect.install c p ∈ w.trace → Effect.install d p ∈ w.trace → c = d
  entry_live : ∀ c t, w.tasks c = some t →
    Effect.install c t.ptr ∈ w.trace ∧ Effect.cancel t.ptr ∉ w.trace ∧
      Effect.loopExit t.ptr ∉ w.trace
  others_dead : ∀ c p, Effect.install c p ∈ w.trace →
    (∃ t, w.tasks c = some t ∧ t.ptr = p) ∨ Effect.cancel p ∈ w.trace ∨
      Effect.loopExit p ∈ w.trace

/-- Two status commands of chat 5 in a row, as in the examples. -/
def exampleEvents : List Event :=
  [Event.command 5 "status" exampleEnv, Event.command 5 "network" exampleEnv]

/-- A tick of the examples whose edit is refused because the message is gone. -/
def exampleGoneEnv : TickEnv :=
  { now := 1000000000, updateFn := Except.ok "report",
    editMessage := fun _ _ _ => some "telegram: Bad Request: MESSAGE to edit not found" }

/-- A tick of the examples whose report fails, 11 minutes after the start. -/
def exampleLateEnv : TickEnv :=
  { now := 660000000000, updateFn := Except.error "no data", editMessage := fun _ _ _ => none }

/-- An HTTP exchange of the examples: status 200, and a body that decodes to
`ok = false` with the description Telegram gives for an edit that changes
nothing. -/
def exampleNotModified : HttpOutcome :=
  HttpOutcome.response 200
    "\x7b\"ok\":false,\"error_code\":400,\"description\":\"Bad Request: message is not modified\"\x7d"
    (Except.ok { ok := false, description := "Bad Request: message is not modified" })

/-- The same answer with status 400, as an HTTP-status error. -/
def exampleNotModified400 : HttpOutcome :=
  HttpOutcome.response 400
    "\x7b\"ok\":false,\"error_code\":400,\"description\":\"Bad Request: message is not modified\"\x7d"
    (Except.ok { ok := false, description := "Bad Request: message is not modified" })

/-- A tick of the examples whose edit is answered with `outcome`. -/
def exampleEditEnv (outcome : HttpOutcome) : TickEnv :=
  { now := 1000000000, updateFn := Except.ok "report",
    editMessage := fun _ _ _ => EditMessage outcome }

/-- A boot time of the examples: 2024-01-01 00:00:00 UTC. -/
def exampleBoot : Time := Time.Unix 1704067200

/-- A `/proc` of the examples that cannot be listed. -/
def exampleProcUnreadable : ProcFS :=
  { readDir := none, atoi := fun _ => none, readlink := fun _ => none, readFile := fun _ => none }

/-- A `/proc` of the examples with one process, pid 1, whose executable lies
in `/srv/app`. -/
def exampleProc : ProcFS :=
  { readDir := some [{ name := "1", isDir := true }, { name := "cpuinfo", isDir := false }],
    atoi := fun s => if s = "1" then some 1 else none,
    readlink := fun _ => some "/srv/app/bin/worker",
    readFile := fun _ => none }

/-- The answer of the examples for a status command that could not be started. -/
def exampleLaunchFailure : CommandOutcome := { out := "", err := some ExecErr.other }

/-- The answers of the examples: every send succeeds except the one to user 12. -/
def exampleSend : ChatID → String → Except String Int :=
  fun u _ => if u = 12 then Except.error "Forbidden: bot was blocked by the user" else Except.ok 100

/-- A later boot time of the examples: 2024-01-01 01:00:00 UTC. -/
def exampleBootLater : Time := Time.Unix 1704070800

/-- A stand-in of the examples for `Time.Format("2006-01-02 15:04:05")`. -/
def exampleFormat : Time → String := fun t => "unix " ++ toString t.unix

/-- The answer of the examples for an active unit. -/
def exampleActive : CommandOutcome := { out := "active\n", err := none }

/-- The allowed users of the examples, 11 and 12; the order of a range turns
with what has been sent. -/
def exampleAllowed : AllowedMap :=
  { keys := [11, 12]
    range := fun sent => if sent.length % 4 = 0 then [11, 12] else [12, 11]
    nodup := by decide
    range_perm := by
      intro sent
      show (if sent.length % 4 = 0 then [11, 12] else [12, 11]).Perm [11, 12]
      split_ifs
      · exact List.Perm.refl _
      · exact List.Perm.swap 11 12 [] }

/-- A text of the examples with 3801 characters, all `a`. -/
def exampleLongText : String := String.mk (List.replicate 3801 (Char.ofNat 97))

/-! ## Theorems: the registry operations -/

theorem Tasks.delete_self (tasks : Tasks) (c : ChatID) : tasks.delete c c = none := by
  simp [Tasks.delete]

theorem Tasks.delete_other (tasks : Tasks) {c d : ChatID} (h : d ≠ c) :
    tasks.delete c d = tasks d := by
  simp [Tasks.delete, h]

theorem Tasks.set_self (tasks : Tasks) (c : ChatID) (t : UpdateTask) :
    tasks.set c t c = some t := by
  simp [Tasks.set]

theorem Tasks.set_other (tasks : Tasks) (t : UpdateTask) {c d : ChatID} (h : d ≠ c) :
    tasks.set c t d = tasks d := by
  simp [Tasks.set, h]

theorem stopAndDelete_none {tasks : Tasks} {c : ChatID} (h : tasks c = none) :
    stopAndDelete tasks c = (tasks, []) := by
  simp [stopAndDelete, h]

theorem stopAndDelete_some {tasks : Tasks} {c : ChatID} {t : UpdateTask} (h : tasks c = some t) :
    stopAndDelete tasks c =
      (tasks.delete c, [Effect.cancel t.ptr, Effect.deleteMessage c t.messageID]) := by
  simp [stopAndDelete, h]

theorem stopAndDelete_self (tasks : Tasks) (c : ChatID) : (stopAndDelete tasks c).1 c = none := by
  cases h : tasks c with
  | none => rw [stopAndDelete_none h]; exact h
  | some t => rw [stopAndDelete_some h]; exact Tasks.delete_self tasks c

theorem stopAndDelete_other (tasks : Tasks) {c d : ChatID} (h : d ≠ c) :
    (stopAndDelete tasks c).1 d = tasks d := by
  cases h' : tasks c with
  | none => rw [stopAndDelete_none h']
  | some t => rw [stopAndDelete_some h']; exact Tasks.delete_other tasks h

/-- C3: `stopAndDelete(chat)` on any registry.  With an entry present the entry
is removed, its cancel function is called and one delete of its displayed
message is attempted, and nothing else is done; with no entry the registry is
unchanged and nothing is done.  The entries of other chats never change. -/
theorem stopAndDelete_spec (tasks : Tasks) (chatID : ChatID) :
    (∀ task, tasks chatID = some task →
      (stopAndDelete tasks chatID).1 chatID = none ∧
      (stopAndDelete tasks chatID).2 =
        [Effect.cancel task.ptr, Effect.deleteMessage chatID task.messageID]) ∧
    (tasks chatID = none → stopAndDelete tasks chatID = (tasks, [])) ∧
    (∀ c, c ≠ chatID → (stopAndDelete tasks chatID).1 c = tasks c) := by
  refine ⟨fun task h => ⟨stopAndDelete_self tasks chatID, ?_⟩, stopAndDelete_none,
    fun c hc => stopAndDelete_other tasks hc⟩
  rw [stopAndDelete_some h]

theorem stopAndDelete_spec_witness :
    ((stopAndDelete exampleTasks 7).1 7 = none ∧
      (stopAndDelete exampleTasks 7).2 = [Effect.cancel 3, Effect.deleteMessage 7 42]) ∧
    stopAndDelete exampleTasks 9 = (exampleTasks, []) ∧
    (stopAndDelete exampleTasks 7).1 8 = exampleTasks 8 :=
  ⟨(stopAndDelete_spec exampleTasks 7).1 { ptr := 3, messageID := 42 } (by decide),
   (stopAndDelete_spec exampleTasks 9).2.1 (by decide),
   (stopAndDelete_spec exampleTasks 7).2.2 8 (by decide)⟩

theorem selfRemove_same {tasks : Tasks} {c : ChatID} {task cur : UpdateTask}
    (h : tasks c = some cur) (hp : cur.ptr = task.ptr) :
    selfRemove tasks c task = tasks.delete c := by
  simp [selfRemove, h, hp]

theorem selfRemove_keeps {tasks : Tasks} {c : ChatID} {task : UpdateTask}
    (h : ¬ ∃ cur, tasks c = some cur ∧ cur.ptr = task.ptr) :
    selfRemove tasks c task = tasks := by
  unfold selfRemove
  cases hc : tasks c with
  | none => rfl
  | some cur =>
    have : cur.ptr ≠ task.ptr := fun hp => h ⟨cur, hc, hp⟩
    simp [this]

theorem loopIteration_stopped_tasks (lower : Char → Char) (tasks : Tasks) (c : ChatID)
    (task : UpdateTask) (start : Int) (sel : SelectCase) (env : TickEnv)
    (h : (loopIteration lower tasks c task start sel env).2.1 = LoopState.stopped) :
    (loopIteration lower tasks c task start sel env).1 = selfRemove tasks c task := by
  simp only [loopIteration] at h ⊢
  generalize (match sel with
    | SelectCase.ctxDone => ((LoopState.stopped, []) : LoopState × List Effect)
    | SelectCase.tick => refreshTick lower c task.messageID (start + maxUpdateDuration) env) = r
    at h ⊢
  rcases r with ⟨st, eff⟩
  cases st <;> simp_all

theorem loopIteration_running_tasks (lower : Char → Char) (tasks : Tasks) (c : ChatID)
    (task : UpdateTask) (start : Int) (sel : SelectCase) (env : TickEnv)
    (h : (loopIteration lower tasks c task start sel env).2.1 = LoopState.running) :
    (loopIteration lower tasks c task start sel env).1 = tasks := by
  simp only [loopIteration] at h ⊢
  generalize (match sel with
    | SelectCase.ctxDone => ((LoopState.stopped, []) : LoopState × List Effect)
    | SelectCase.tick => refreshTick lower c task.messageID (start + maxUpdateDuration) env) = r
    at h ⊢
  rcases r with ⟨st, eff⟩
  cases st <;> simp_all

/-- C4: when the refresh loop of a task returns, for whatever reason, the
registry becomes what the deferred self-removal makes of it, and that step
deletes the entry of the chat exactly when the entry is still this task (the
same allocation): in that case only this chat loses its entry, and when the
entry is absent or belongs to another task the registry is unchanged. -/
theorem selfRemove_spec (lower : Char → Char) (tasks : Tasks) (chatID : ChatID)
    (task : UpdateTask) (start : Int) (sel : SelectCase) (env : TickEnv) :
    ((loopIteration lower tasks chatID task start sel env).2.1 = LoopState.stopped →
      (loopIteration lower tasks chatID task start sel env).1 = selfRemove tasks chatID task) ∧
    ((tasks chatID ≠ none ∧ selfRemove tasks chatID task chatID = none) ↔
      ∃ cur, tasks chatID = some cur ∧ cur.ptr = task.ptr) ∧
    ((∃ cur, tasks chatID = some cur ∧ cur.ptr = task.ptr) →
      selfRemove tasks chatID task chatID = none ∧
      ∀ c, c ≠ chatID → selfRemove tasks chatID task c = tasks c) ∧
    ((¬ ∃ cur, tasks chatID = some cur ∧ cur.ptr = task.ptr) →
      selfRemove tasks chatID task = tasks) := by
  refine ⟨loopIteration_stopped_tasks lower tasks chatID task start sel env, ?_, ?_, selfRemove_keeps⟩
  · constructor
    · rintro ⟨hne, hnone⟩
      by_contra hno
      rw [selfRemove_keeps hno] at hnone
      exact hne hnone
    · rintro ⟨cur, hc, hp⟩
      refine ⟨by simp [hc], ?_⟩
      rw [selfRemove_same hc hp]
      exact Tasks.delete_self tasks chatID
  · rintro ⟨cur, hc, hp⟩
    rw [selfRemove_same hc hp]
    exact ⟨Tasks.delete_self tasks chatID, fun c hne => Tasks.delete_other tasks hne⟩

theorem selfRemove_spec_witness :
    (loopIteration Char.toLower exampleTasks 7 { ptr := 3, messageID := 42 } 0
        SelectCase.ctxDone exampleTickEnv).1 = selfRemove exampleTasks 7 { ptr := 3, messageID := 42 } ∧
    (selfRemove exampleTasks 7 { ptr := 3, messageID := 42 } 7 = none ∧
      ∀ c, c ≠ 7 → selfRemove exampleTasks 7 { ptr := 3, messageID := 42 } c = exampleTasks c) ∧
    selfRemove exampleTasks 7 { ptr := 5, messageID := 42 } = exampleTasks :=
  ⟨(selfRemove_spec Char.toLower exampleTasks 7 { ptr := 3, messageID := 42 } 0
      SelectCase.ctxDone exampleTickEnv).1 (by rfl),
   (selfRemove_spec Char.toLower exampleTasks 7 { ptr := 3, messageID := 42 } 0
      SelectCase.ctxDone exampleTickEnv).2.2.1 ⟨{ ptr := 3, messageID := 42 }, by decide, by decide⟩,
   (selfRemove_spec Char.toLower exampleTasks 7 { ptr := 5, messageID := 42 } 0
      SelectCase.ctxDone exampleTickEnv).2.2.2 (by
        rintro ⟨cur, hc, hp⟩
        have h7 : exampleTasks 7 = some { ptr := 3, messageID := 42 } := by decide
        rw [h7] at hc
        cases hc
        exact absurd hp (by decide))⟩

/-! ## Theorems: handling a command -/

/-- Effects of the part of a start command that follows `stopAndDelete`: the
report, the send, a log line, the installation at `newPtr`. -/
theorem startCase_ok {tasks : Tasks} {newPtr : Nat} {c : ChatID} {name : String}
    {format : Except String String} {send : ChatID → String → Except String Int}
    {text : String} {m : Int} (h1 : format = Except.ok text) (h2 : send c text = Except.ok m) :
    startCase tasks newPtr c name format send =
      ((stopAndDelete tasks c).1.set c { ptr := newPtr, messageID := m },
        (stopAndDelete tasks c).2 ++
          [Effect.report, Effect.sendMessage c text, Effect.install c newPtr]) := by
  subst h1
  simp [startCase, h2, startMonitoring]

theorem startCase_fail (tasks : Tasks) (newPtr : Nat) {c : ChatID} (name : String)
    {format : Except String String} {send : ChatID → String → Except String Int}
    (h : ¬ ∃ text m, format = Except.ok text ∧ send c text = Except.ok m) :
    ∃ rest, startCase tasks newPtr c name format send =
        ((stopAndDelete tasks c).1, (stopAndDelete tasks c).2 ++ rest) ∧
      ∀ e ∈ rest, e = Effect.report ∨ (∃ t, e = Effect.sendMessage c t) ∨ ∃ l, e = Effect.log l := by
  cases hf : format with
  | error err =>
    refine ⟨[Effect.report, Effect.log (name ++ " error: " ++ err)], by simp [startCase], ?_⟩
    intro e he
    simp at he
    rcases he with rfl | rfl
    · exact Or.inl rfl
    · exact Or.inr (Or.inr ⟨_, rfl⟩)
  | ok text =>
    cases hs : send c text with
    | ok m => exact absurd ⟨text, m, hf, hs⟩ h
    | error err =>
      refine ⟨[Effect.report, Effect.sendMessage c text,
        Effect.log ("send " ++ name ++ " error: " ++ err)], by simp [startCase, hs], ?_⟩
      intro e he
      simp at he
      rcases he with rfl | rfl | rfl
      · exact Or.inl rfl
      · exact Or.inr (Or.inl ⟨_, rfl⟩)
      · exact Or.inr (Or.inr ⟨_, rfl⟩)

/-- The start cases of the switch all run `startCase`. -/
theorem handleCommand_start {tasks : Tasks} {newPtr : Nat} {c : ChatID} {env : CommandEnv}
    {cmd : String} {format : Except String String}
    (hcmd : (cmd, format) ∈ [("status", env.formatStatus), ("network", env.formatNetwork),
      ("process", env.formatProcesses)]) :
    handleCommand tasks newPtr c cmd env = startCase tasks newPtr c cmd format env.sendMessage := by
  simp only [List.mem_cons, Prod.mk.injEq, List.mem_singleton, List.not_mem_nil, or_false] at hcmd
  rcases hcmd with ⟨rfl, rfl⟩ | ⟨rfl, rfl⟩ | ⟨rfl, rfl⟩ <;> simp [handleCommand]

/-- The shape of every command: nothing at all, or `stopAndDelete` followed by
effects that neither cancel nor install, or `stopAndDelete` followed by such
effects and the installation of a task at `newPtr`. -/
theorem handleCommand_shape (tasks : Tasks) (newPtr : Nat) (c : ChatID) (cmd : String)
    (env : CommandEnv) :
    handleCommand tasks newPtr c cmd env = (tasks, []) ∨
    (∃ rest, handleCommand tasks newPtr c cmd env =
        ((stopAndDelete tasks c).1, (stopAndDelete tasks c).2 ++ rest) ∧
      ∀ e ∈ rest, e = Effect.report ∨ (∃ t, e = Effect.sendMessage c t) ∨ ∃ l, e = Effect.log l) ∨
    (∃ text m, handleCommand tasks newPtr c cmd env =
        ((stopAndDelete tasks c).1.set c { ptr := newPtr, messageID := m },
          (stopAndDelete tasks c).2 ++
            [Effect.report, Effect.sendMessage c text, Effect.install c newPtr])) := by
  have key : ∀ name format, startCase tasks newPtr c name format env.sendMessage = (tasks, []) ∨
      (∃ rest, startCase tasks newPtr c name format env.sendMessage =
          ((stopAndDelete tasks c).1, (stopAndDelete tasks c).2 ++ rest) ∧
        ∀ e ∈ rest, e = Effect.report ∨ (∃ t, e = Effect.sendMessage c t) ∨
          ∃ l, e = Effect.log l) ∨
      (∃ text m, startCase tasks newPtr c name format env.sendMessage =
          ((stopAndDelete tasks c).1.set c { ptr := newPtr, messageID := m },
            (stopAndDelete tasks c).2 ++
              [Effect.report, Effect.sendMessage c text, Effect.install c newPtr])) := by
    intro name format
    by_cases h : ∃ text m, format = Except.ok text ∧ env.sendMessage c text = Except.ok m
    · obtain ⟨text, m, h1, h2⟩ := h
      exact Or.inr (Or.inr ⟨text, m, startCase_ok h1 h2⟩)
    · exact Or.inr (Or.inl (startCase_fail tasks newPtr name h))
  unfold handleCommand
  split_ifs
  · exact key _ _
  · exact key _ _
  · exact key _ _
  · exact Or.inr (Or.inl ⟨[], by simp, by simp⟩)
  · exact Or.inl rfl

/-- C2: a start command (`status`, `network` or `process`, with the formatter
that belongs to it) on any registry.  An existing task of the chat is
cancelled and a delete of its message is attempted, first of all and once;
afterwards the chat has an entry exactly when the first report was produced
and the first send succeeded, the entry then being the new task bound to the
message id that send returned; the entries of other chats are unchanged. -/
theorem handleCommand_start_spec (tasks : Tasks) (newPtr : Nat) (chatID : ChatID)
    (env : CommandEnv) (cmd : String) (format : Except String String)
    (hcmd : (cmd, format) ∈ [("status", env.formatStatus), ("network", env.formatNetwork),
      ("process", env.formatProcesses)]) :
    (∃ rest, (handleCommand tasks newPtr chatID cmd env).2 =
        (match tasks chatID with
          | some task => [Effect.cancel task.ptr, Effect.deleteMessage chatID task.messageID]
          | none => []) ++ rest ∧
      ∀ e ∈ rest, (∀ p, e ≠ Effect.cancel p) ∧ ∀ c m, e ≠ Effect.deleteMessage c m) ∧
    ((∃ t, (handleCommand tasks newPtr chatID cmd env).1 chatID = some t) ↔
      ∃ text msgID, format = Except.ok text ∧ env.sendMessage chatID text = Except.ok msgID) ∧
    (∀ text msgID, format = Except.ok text → env.sendMessage chatID text = Except.ok msgID →
      (handleCommand tasks newPtr chatID cmd env).1 chatID =
        some { ptr := newPtr, messageID := msgID } ∧
      Effect.install chatID newPtr ∈ (handleCommand tasks newPtr chatID cmd env).2) ∧
    (∀ c, c ≠ chatID → (handleCommand tasks newPtr chatID cmd env).1 c = tasks c) := by
  rw [handleCommand_start hcmd]
  have hsd : (stopAndDelete tasks chatID).2 =
      (match tasks chatID with
        | some task => [Effect.cancel task.ptr, Effect.deleteMessage chatID task.messageID]
        | none => []) := by
    cases h : tasks chatID with
    | none => rw [stopAndDelete_none h]
    | some t => rw [stopAndDelete_some h]
  by_cases h : ∃ text m, format = Except.ok text ∧ env.sendMessage chatID text = Except.ok m
  · obtain ⟨text, m, h1, h2⟩ := h
    rw [startCase_ok h1 h2]
    refine ⟨⟨_, by rw [hsd], ?_⟩, ?_, ?_, ?_⟩
    · intro e he
      simp at he
      rcases he with rfl | rfl | rfl <;> simp
    · simp only [Tasks.set_self]
      exact ⟨fun _ => ⟨text, m, h1, h2⟩, fun _ => ⟨_, rfl⟩⟩
    · intro text' m' h1' h2'
      rw [h1] at h1'
      cases h1'
      rw [h2] at h2'
      cases h2'
      exact ⟨Tasks.set_self _ _ _, by simp⟩
    · intro c hc
      show (stopAndDelete tasks chatID).1.set chatID _ c = tasks c
      rw [Tasks.set_other _ _ hc]
      exact stopAndDelete_other tasks hc
  · obtain ⟨rest, hr, hq⟩ := startCase_fail tasks newPtr cmd h
    rw [hr]
    refine ⟨⟨rest, by rw [hsd], ?_⟩, ?_, ?_, ?_⟩
    · intro e he
      rcases hq e he with rfl | ⟨t, rfl⟩ | ⟨l, rfl⟩ <;> simp
    · simp only [stopAndDelete_self]
      constructor
      · rintro ⟨t, ht⟩
        cases ht
      · intro h'
        exact absurd h' h
    · intro text m h1 h2
      exact absurd ⟨text, m, h1, h2⟩ h
    · intro c hc
      exact stopAndDelete_other tasks hc

theorem handleCommand_start_spec_witness :
    (∃ rest, (handleCommand exampleTasks 5 7 "status" exampleEnv).2 =
        (match exampleTasks 7 with
          | some task => [Effect.cancel task.ptr, Effect.deleteMessage 7 task.messageID]
          | none => []) ++ rest ∧
      ∀ e ∈ rest, (∀ p, e ≠ Effect.cancel p) ∧ ∀ c m, e ≠ Effect.deleteMessage c m) ∧
    ((handleCommand exampleTasks 5 7 "status" exampleEnv).1 7 =
        some { ptr := 5, messageID := 100 } ∧
      Effect.install 7 5 ∈ (handleCommand exampleTasks 5 7 "status" exampleEnv).2) ∧
    (handleCommand exampleTasks 5 7 "status" exampleEnv).1 8 = exampleTasks 8 :=
  have h := handleCommand_start_spec exampleTasks 5 7 exampleEnv "status" (Except.ok "report")
    (by simp [exampleEnv])
  ⟨h.1, h.2.2.1 "report" 100 rfl rfl, h.2.2.2 8 (by decide)⟩

/-! ## Theorems: one live task per chat -/

/-- What a command does to the registry and which cancellations,
installations and exits it records. -/
theorem handleCommand_facts (tasks : Tasks) (newPtr : Nat) (c : ChatID) (cmd : String)
    (env : CommandEnv) :
    (∀ d p, Effect.install d p ∈ (handleCommand tasks newPtr c cmd env).2 →
      d = c ∧ p = newPtr ∧
        ∃ m, (handleCommand tasks newPtr c cmd env).1 c = some { ptr := newPtr, messageID := m }) ∧
    (∀ p, Effect.cancel p ∈ (handleCommand tasks newPtr c cmd env).2 →
      ∃ t, tasks c = some t ∧ t.ptr = p) ∧
    (∀ p, Effect.loopExit p ∉ (handleCommand tasks newPtr c cmd env).2) ∧
    (∀ d, d ≠ c → (handleCommand tasks newPtr c cmd env).1 d = tasks d) ∧
    (handleCommand tasks newPtr c cmd env = (tasks, []) ∨
      (((handleCommand tasks newPtr c cmd env).1 c = none ∨
          ∃ m, (handleCommand tasks newPtr c cmd env).1 c =
              some { ptr := newPtr, messageID := m } ∧
            Effect.install c newPtr ∈ (handleCommand tasks newPtr c cmd env).2) ∧
        ∀ t, tasks c = some t → Effect.cancel t.ptr ∈ (handleCommand tasks newPtr c cmd env).2)) := by
  have hsdI : ∀ d p, Effect.install d p ∉ (stopAndDelete tasks c).2 := by
    intro d p
    cases h : tasks c with
    | none => simp [stopAndDelete_none h]
    | some t => simp [stopAndDelete_some h]
  have hsdE : ∀ p, Effect.loopExit p ∉ (stopAndDelete tasks c).2 := by
    intro p
    cases h : tasks c with
    | none => simp [stopAndDelete_none h]
    | some t => simp [stopAndDelete_some h]
  have hsdC : ∀ p, Effect.cancel p ∈ (stopAndDelete tasks c).2 ↔ ∃ t, tasks c = some t ∧ t.ptr = p := by
    intro p
    cases h : tasks c with
    | none => simp [stopAndDelete_none h]
    | some t => simp [stopAndDelete_some h, eq_comm]
  rcases handleCommand_shape tasks newPtr c cmd env with h | ⟨rest, h, hq⟩ | ⟨text, m, h⟩
  · rw [h]
    simp
  · rw [h]
    have hrI : ∀ d p, Effect.install d p ∉ rest := by
      intro d p hin
      rcases hq _ hin with h' | ⟨t, h'⟩ | ⟨l, h'⟩ <;> cases h'
    have hrC : ∀ p, Effect.cancel p ∉ rest := by
      intro p hin
      rcases hq _ hin with h' | ⟨t, h'⟩ | ⟨l, h'⟩ <;> cases h'
    have hrE : ∀ p, Effect.loopExit p ∉ rest := by
      intro p hin
      rcases hq _ hin with h' | ⟨t, h'⟩ | ⟨l, h'⟩ <;> cases h'
    refine ⟨?_, ?_, ?_, ?_, Or.inr ⟨Or.inl (stopAndDelete_self tasks c), ?_⟩⟩
    · intro d p hin
      rcases List.mem_append.1 hin with h' | h'
      · exact absurd h' (hsdI d p)
      · exact absurd h' (hrI d p)
    · intro p hin
      rcases List.mem_append.1 hin with h' | h'
      · exact (hsdC p).1 h'
      · exact absurd h' (hrC p)
    · intro p hin
      rcases List.mem_append.1 hin with h' | h'
      · exact hsdE p h'
      · exact hrE p h'
    · intro d hd
      exact stopAndDelete_other tasks hd
    · intro t ht
      exact List.mem_append_left _ ((hsdC t.ptr).2 ⟨t, ht, rfl⟩)
  · rw [h]
    refine ⟨?_, ?_, ?_, ?_, Or.inr ⟨Or.inr ⟨m, Tasks.set_self _ _ _, by simp⟩, ?_⟩⟩
    · intro d p hin
      rcases List.mem_append.1 hin with h' | h'
      · exact absurd h' (hsdI d p)
      · simp at h'
        exact ⟨h'.1, h'.2, m, Tasks.set_self _ _ _⟩
    · intro p hin
      rcases List.mem_append.1 hin with h' | h'
      · exact (hsdC p).1 h'
      · simp at h'
    · intro p hin
      rcases List.mem_append.1 hin with h' | h'
      · exact hsdE p h'
      · simp at h'
    · intro d hd
      show (stopAndDelete tasks c).1.set c _ d = tasks d
      rw [Tasks.set_other _ _ hd]
      exact stopAndDelete_other tasks hd
    · intro t ht
      exact List.mem_append_left _ ((hsdC t.ptr).2 ⟨t, ht, rfl⟩)

theorem World.step_command (w : World) (c : ChatID) (cmd : String) (env : CommandEnv) :
    w.step (Event.command c cmd env) =
      { tasks := (handleCommand w.tasks w.nextPtr c cmd env).1, nextPtr := w.nextPtr + 1,
        trace := w.trace ++ (handleCommand w.tasks w.nextPtr c cmd env).2 } := rfl

theorem World.Inv.init : World.init.Inv := by
  constructor <;> simp [World.init, Tasks.empty]

theorem World.Inv.command {w : World} (hw : w.Inv) (c : ChatID) (cmd : String)
    (env : CommandEnv) : (w.step (Event.command c cmd env)).Inv := by
  obtain ⟨fI, fC, fE, fO, fS⟩ := handleCommand_facts w.tasks w.nextPtr c cmd env
  rw [World.step_command]
  constructor
  · intro d p hin
    rcases List.mem_append.1 hin with h | h
    · exact Nat.lt_succ_of_lt (hw.started_lt d p h)
    · rw [(fI d p h).2.1]
      exact Nat.lt_succ_self _
  · intro p hin
    rcases List.mem_append.1 hin with h | h
    · exact Nat.lt_succ_of_lt (hw.cancel_lt p h)
    · obtain ⟨t, ht, rfl⟩ := fC p h
      exact Nat.lt_succ_of_lt (hw.started_lt c t.ptr (hw.entry_live c t ht).1)
  · intro p hin
    rcases List.mem_append.1 hin with h | h
    · exact Nat.lt_succ_of_lt (hw.exit_lt p h)
    · exact absurd h (fE p)
  · intro d e p hd he
    rcases List.mem_append.1 hd with h | h <;> rcases List.mem_append.1 he with h' | h'
    · exact hw.chat_unique d e p h h'
    · have := hw.started_lt d p h
      rw [(fI e p h').2.1] at this
      exact absurd this (Nat.lt_irrefl _)
    · have := hw.started_lt e p h'
      rw [(fI d p h).2.1] at this
      exact absurd this (Nat.lt_irrefl _)
    · rw [(fI d p h).1, (fI e p h').1]
  · intro d t ht
    simp only at ht
    by_cases hd : d = c
    · subst hd
      rcases fS with hs | ⟨hs, _⟩
      · rw [hs] at ht ⊢
        simpa using hw.entry_live d t ht
      · rcases hs with hn | ⟨m, hm, hin⟩
        · rw [hn] at ht
          cases ht
        · rw [hm] at ht
          cases ht
          refine ⟨List.mem_append_right _ hin, ?_, ?_⟩
          · intro hc
            rcases List.mem_append.1 hc with h | h
            · exact Nat.lt_irrefl _ (hw.cancel_lt _ h)
            · obtain ⟨t, ht, hp⟩ := fC _ h
              have := hw.started_lt d t.ptr (hw.entry_live d t ht).1
              rw [hp] at this
              exact Nat.lt_irrefl _ this
          · intro hc
            rcases List.mem_append.1 hc with h | h
            · exact Nat.lt_irrefl _ (hw.exit_lt _ h)
            · exact fE _ h
    · rw [fO d hd] at ht
      obtain ⟨h1, h2, h3⟩ := hw.entry_live d t ht
      refine ⟨List.mem_append_left _ h1, ?_, ?_⟩
      · intro hc
        rcases List.mem_append.1 hc with h | h
        · exact h2 h
        · obtain ⟨t', ht', hp⟩ := fC _ h
          have h1' := (hw.entry_live c t' ht').1
          rw [hp] at h1'
          exact hd (hw.chat_unique d c t.ptr h1 h1')
      · intro hc
        rcases List.mem_append.1 hc with h | h
        · exact h3 h
        · exact fE _ h
  · intro d p hin
    simp only
    rcases List.mem_append.1 hin with h | h
    · rcases hw.others_dead d p h with ⟨t, ht, hp⟩ | hc | he
      · by_cases hd : d = c
        · subst hd
          rcases fS with hs | ⟨_, hs⟩
          · rw [hs]
            exact Or.inl ⟨t, ht, hp⟩
          · rw [← hp]
            exact Or.inr (Or.inl (List.mem_append_right _ (hs t ht)))
        · exact Or.inl ⟨t, by rw [fO d hd]; exact ht, hp⟩
      · exact Or.inr (Or.inl (List.mem_append_left _ hc))
      · exact Or.inr (Or.inr (List.mem_append_left _ he))
    · obtain ⟨rfl, rfl, m, hm⟩ := fI d p h
      exact Or.inl ⟨_, hm, rfl⟩

theorem World.Inv.loopExit {w : World} (hw : w.Inv) (c : ChatID) (task : UpdateTask) :
    (w.step (Event.loopExit c task)).Inv := by
  simp only [World.step]
  split_ifs with hg
  · obtain ⟨hst, hne⟩ := hg
    have hsr : ∀ d t, selfRemove w.tasks c task d = some t → w.tasks d = some t ∧ t.ptr ≠ task.ptr := by
      intro d t ht
      by_cases hs : ∃ cur, w.tasks c = some cur ∧ cur.ptr = task.ptr
      · obtain ⟨cur, hcur, hp⟩ := hs
        rw [selfRemove_same hcur hp] at ht
        by_cases hd : d = c
        · subst hd
          rw [Tasks.delete_self] at ht
          cases ht
        · rw [Tasks.delete_other _ hd] at ht
          refine ⟨ht, fun hp' => hd ?_⟩
          have h1 := (hw.entry_live d t ht).1
          rw [hp'] at h1
          exact hw.chat_unique d c task.ptr h1 hst
      · rw [selfRemove_keeps hs] at ht
        refine ⟨ht, fun hp' => ?_⟩
        have h1 := (hw.entry_live d t ht).1
        rw [hp'] at h1
        have hd := hw.chat_unique d c task.ptr h1 hst
        subst hd
        exact hs ⟨t, ht, hp'⟩
    constructor
    · intro d p hin
      simp at hin
      exact hw.started_lt d p hin
    · intro p hin
      simp at hin
      exact hw.cancel_lt p hin
    · intro p hin
      simp at hin
      rcases hin with h | h
      · exact hw.exit_lt p h
      · rw [h]
        exact hw.started_lt c task.ptr hst
    · intro d e p hd he
      simp at hd he
      exact hw.chat_unique d e p hd he
    · intro d t ht
      obtain ⟨ht', hp⟩ := hsr d t ht
      obtain ⟨h1, h2, h3⟩ := hw.entry_live d t ht'
      refine ⟨List.mem_append_left _ h1, by simpa using h2, ?_⟩
      simp only [List.mem_append, List.mem_singleton, Effect.loopExit.injEq, not_or]
      exact ⟨h3, hp⟩
    · intro d p hin
      simp only [List.mem_append, List.mem_singleton, reduceCtorEq, or_false] at hin
      simp only [List.mem_append, List.mem_singleton, reduceCtorEq, or_false,
        Effect.loopExit.injEq]
      rcases hw.others_dead d p hin with ⟨t, ht, hp⟩ | hc | he
      · by_cases hpt : p = task.ptr
        · exact Or.inr (Or.inr (Or.inr hpt))
        · left
          refine ⟨t, ?_, hp⟩
          by_cases hs : ∃ cur, w.tasks c = some cur ∧ cur.ptr = task.ptr
          · obtain ⟨cur, hcur, hcp⟩ := hs
            rw [selfRemove_same hcur hcp]
            have hd : d ≠ c := by
              rintro rfl
              rw [hcur] at ht
              cases ht
              exact hpt (hp.symm.trans hcp)
            rw [Tasks.delete_other _ hd]
            exact ht
          · rw [selfRemove_keeps hs]
            exact ht
      · exact Or.inr (Or.inl hc)
      · exact Or.inr (Or.inr (Or.inl he))
  · exact hw

theorem World.Inv.foldl {evs : List Event} : ∀ {w : World}, w.Inv → (evs.foldl World.step w).Inv := by
  induction evs with
  | nil => intro w hw; exact hw
  | cons ev evs ih =>
    intro w hw
    rw [List.foldl_cons]
    apply ih
    cases ev with
    | command c cmd env => exact hw.command c cmd env
    | loopExit c task => exact hw.loopExit c task

theorem World.Inv.run (evs : List Event) : (World.run evs).Inv :=
  World.Inv.foldl World.Inv.init

/-- A command that installs a task at an address not started before: the
trace grows by a block that ends with the installation; before it the entry
the chat had was cancelled, and every task started for the chat earlier is
cancelled or exited by then. -/
theorem World.Inv.install {w : World} (hw : w.Inv) (c : ChatID) (cmd : String) (env : CommandEnv)
    (p : Nat) (hnew : ¬ w.startedFor c p)
    (hin : (w.step (Event.command c cmd env)).startedFor c p) :
    ∃ pre m,
      (w.step (Event.command c cmd env)).trace = w.trace ++ pre ++ [Effect.install c p] ∧
      (w.step (Event.command c cmd env)).tasks c = some { ptr := p, messageID := m } ∧
      (∀ t, w.tasks c = some t → t.ptr ≠ p ∧ Effect.cancel t.ptr ∈ pre) ∧
      (∀ q, w.startedFor c q → q ≠ p ∧
        (Effect.cancel q ∈ w.trace ++ pre ∨ Effect.loopExit q ∈ w.trace ++ pre)) := by
  rw [World.step_command] at hin ⊢
  unfold World.startedFor at hin hnew
  simp only at hin
  have hin' : Effect.install c p ∈ (handleCommand w.tasks w.nextPtr c cmd env).2 := by
    rcases List.mem_append.1 hin with h | h
    · exact absurd h hnew
    · exact h
  obtain ⟨fI, -, -, -, -⟩ := handleCommand_facts w.tasks w.nextPtr c cmd env
  obtain ⟨-, hp, -⟩ := fI c p hin'
  subst hp
  have hsdC : ∀ t, w.tasks c = some t → Effect.cancel t.ptr ∈ (stopAndDelete w.tasks c).2 := by
    intro t ht
    simp [stopAndDelete_some ht]
  rcases handleCommand_shape w.tasks w.nextPtr c cmd env with h | ⟨rest, h, hq⟩ | ⟨text, m, h⟩
  · rw [h] at hin'
    simp at hin'
  · rw [h] at hin'
    exfalso
    rcases List.mem_append.1 hin' with h' | h'
    · cases ht : w.tasks c with
      | none => simp [stopAndDelete_none ht] at h'
      | some t => simp [stopAndDelete_some ht] at h'
    · rcases hq _ h' with h'' | ⟨t, h''⟩ | ⟨l, h''⟩ <;> cases h''
  · refine ⟨(stopAndDelete w.tasks c).2 ++ [Effect.report, Effect.sendMessage c text], m, ?_, ?_,
      ?_, ?_⟩
    · rw [h]
      simp
    · rw [h]
      exact Tasks.set_self _ _ _
    · intro t ht
      refine ⟨?_, List.mem_append_left _ (hsdC t ht)⟩
      exact Nat.ne_of_lt (hw.started_lt c t.ptr (hw.entry_live c t ht).1)
    · intro q hq
      refine ⟨Nat.ne_of_lt (hw.started_lt c q hq), ?_⟩
      rcases hw.others_dead c q hq with ⟨t, ht, hp⟩ | hc | he
      · left
        rw [← hp]
        exact List.mem_append_right _ (List.mem_append_left _ (hsdC t ht))
      · exact Or.inl (List.mem_append_left _ hc)
      · exact Or.inr (List.mem_append_left _ he)

/-- C1: in every state reached from the empty registry by commands and loop
exits, two tasks started for the same chat that are both neither cancelled nor
exited are the same task, and such a task is the entry of its chat.  When a
command installs a new task for a chat, the installation is the last thing the
command does: before it, the entry the chat had has been taken out and
cancelled, and every task started for the chat earlier is cancelled or exited;
afterwards the entry of the chat is the new task. -/
theorem registry_single_live_task (evs : List Event) :
    (∀ c p q, (World.run evs).startedFor c p → (World.run evs).startedFor c q →
      (World.run evs).live p → (World.run evs).live q → p = q) ∧
    (∀ c p, (World.run evs).startedFor c p → (World.run evs).live p →
      ∃ t, (World.run evs).tasks c = some t ∧ t.ptr = p) ∧
    (∀ c cmd env p, ¬ (World.run evs).startedFor c p →
      ((World.run evs).step (Event.command c cmd env)).startedFor c p →
      ∃ pre m,
        ((World.run evs).step (Event.command c cmd env)).trace =
          (World.run evs).trace ++ pre ++ [Effect.install c p] ∧
        ((World.run evs).step (Event.command c cmd env)).tasks c =
          some { ptr := p, messageID := m } ∧
        (∀ t, (World.run evs).tasks c = some t → t.ptr ≠ p ∧ Effect.cancel t.ptr ∈ pre) ∧
        (∀ q, (World.run evs).startedFor c q → q ≠ p ∧
          (Effect.cancel q ∈ (World.run evs).trace ++ pre ∨
            Effect.loopExit q ∈ (World.run evs).trace ++ pre))) := by
  have hw := World.Inv.run evs
  have key : ∀ c p, (World.run evs).startedFor c p → (World.run evs).live p →
      ∃ t, (World.run evs).tasks c = some t ∧ t.ptr = p := by
    intro c p hs hl
    rcases hw.others_dead c p hs with h | h | h
    · exact h
    · exact absurd h hl.1
    · exact absurd h hl.2
  refine ⟨?_, key, fun c cmd env p => hw.install c cmd env p⟩
  intro c p q hp hq lp lq
  obtain ⟨t, ht, rfl⟩ := key c p hp lp
  obtain ⟨t', ht', rfl⟩ := key c q hq lq
  rw [ht] at ht'
  cases ht'
  rfl

theorem exampleEvents_trace :
    (World.run exampleEvents).trace =
      [Effect.report, Effect.sendMessage 5 "report", Effect.install 5 0, Effect.cancel 0,
        Effect.deleteMessage 5 100, Effect.report, Effect.sendMessage 5 "report",
        Effect.install 5 1] := by
  simp [exampleEvents, World.run, World.step, handleCommand, startCase, stopAndDelete,
    startMonitoring, exampleEnv, World.init, Tasks.empty, Tasks.set]

theorem registry_single_live_task_witness :
    ((1 : Nat) = 1 ∧ ∃ t, (World.run exampleEvents).tasks 5 = some t ∧ t.ptr = 1) ∧
    ∃ pre m,
      ((World.run [Event.command 5 "status" exampleEnv]).step
          (Event.command 5 "network" exampleEnv)).trace =
        (World.run [Event.command 5 "status" exampleEnv]).trace ++ pre ++ [Effect.install 5 1] ∧
      ((World.run [Event.command 5 "status" exampleEnv]).step
          (Event.command 5 "network" exampleEnv)).tasks 5 = some { ptr := 1, messageID := m } ∧
      (∀ t, (World.run [Event.command 5 "status" exampleEnv]).tasks 5 = some t →
        t.ptr ≠ 1 ∧ Effect.cancel t.ptr ∈ pre) ∧
      (∀ q, (World.run [Event.command 5 "status" exampleEnv]).startedFor 5 q → q ≠ 1 ∧
        (Effect.cancel q ∈ (World.run [Event.command 5 "status" exampleEnv]).trace ++ pre ∨
          Effect.loopExit q ∈ (World.run [Event.command 5 "status" exampleEnv]).trace ++ pre)) :=
  have hs : (World.run exampleEvents).startedFor 5 1 := by
    simp [World.startedFor, exampleEvents_trace]
  have hl : (World.run exampleEvents).live 1 := by
    simp [World.live, exampleEvents_trace]
  ⟨⟨(registry_single_live_task exampleEvents).1 5 1 1 hs hs hl hl,
      (registry_single_live_task exampleEvents).2.1 5 1 hs hl⟩,
    (registry_single_live_task [Event.command 5 "status" exampleEnv]).2.2 5 "network" exampleEnv 1
      (by simp [World.startedFor, World.run, World.step, handleCommand, startCase, stopAndDelete,
        startMonitoring, exampleEnv, World.init, Tasks.empty, Tasks.set])
      (by simp [World.startedFor, World.run, World.step, handleCommand, startCase, stopAndDelete,
        startMonitoring, exampleEnv, World.init, Tasks.empty, Tasks.set])⟩

/-! ## Theorems: the refresh tick -/

theorem selfRemove_not_self (tasks : Tasks) (c : ChatID) (task : UpdateTask) :
    ∀ cur, selfRemove tasks c task c = some cur → cur.ptr ≠ task.ptr := by
  intro cur hcur hp
  by_cases hs : ∃ cur, tasks c = some cur ∧ cur.ptr = task.ptr
  · obtain ⟨t, ht, htp⟩ := hs
    rw [selfRemove_same ht htp, Tasks.delete_self] at hcur
    cases hcur
  · rw [selfRemove_keeps hs] at hcur
    exact hs ⟨cur, hcur, hp⟩

/-- The tick returns exactly when the deadline has passed or the edit failed
with one of the three texts. -/
theorem refreshTick_stopped_iff (lower : Char → Char) (c : ChatID) (messageID deadline : Int)
    (env : TickEnv) :
    (refreshTick lower c messageID deadline env).1 = LoopState.stopped ↔
      env.now > deadline ∨
      ∃ text err, env.updateFn = Except.ok text ∧ env.editMessage c messageID text = some err ∧
        (stringsContains (stringsToLower lower err) "message to edit not found" = true ∨
          stringsContains (stringsToLower lower err) "message can\x27t be edited" = true ∨
          stringsContains (stringsToLower lower err) "message is too old" = true) := by
  have hiff : ∀ err, shouldStopOnEditError lower (some err) = true ↔
      (stringsContains (stringsToLower lower err) "message to edit not found" = true ∨
        stringsContains (stringsToLower lower err) "message can\x27t be edited" = true ∨
        stringsContains (stringsToLower lower err) "message is too old" = true) := by
    intro err
    simp [shouldStopOnEditError, or_assoc]
  by_cases hd : env.now > deadline
  · simp [refreshTick, hd]
  · cases hu : env.updateFn with
    | error e => simp [refreshTick, hd, hu]
    | ok text =>
      cases he : env.editMessage c messageID text with
      | none => simp [refreshTick, hd, hu, he]
      | some err =>
        by_cases hs : shouldStopOnEditError lower (some err) = true
        · have hl : (refreshTick lower c messageID deadline env).1 = LoopState.stopped := by
            simp [refreshTick, hd, hu, he, hs]
          simp only [hl, true_iff]
          exact Or.inr ⟨text, err, rfl, he, (hiff err).1 hs⟩
        · have hl : (refreshTick lower c messageID deadline env).1 = LoopState.running := by
            simp [refreshTick, hd, hu, he, hs]
          rw [hl]
          simp only [reduceCtorEq, false_iff]
          rintro (h | ⟨text', err', ht, he', hc⟩)
          · exact hd h
          · cases ht
            rw [he] at he'
            cases he'
            exact hs ((hiff _).2 hc)

theorem refreshTick_effects (lower : Char → Char) (c : ChatID) (messageID deadline : Int)
    (env : TickEnv) :
    (env.now > deadline → (refreshTick lower c messageID deadline env).2 = []) ∧
    (∀ err, env.updateFn = Except.error err →
      ∀ d m t, Effect.editMessage d m t ∉ (refreshTick lower c messageID deadline env).2) := by
  constructor
  · intro hd
    simp [refreshTick, hd]
  · intro err hu d m t
    unfold refreshTick
    split_ifs <;> simp [hu]

theorem loopIteration_tick (lower : Char → Char) (tasks : Tasks) (c : ChatID) (task : UpdateTask)
    (start : Int) (env : TickEnv) :
    ((loopIteration lower tasks c task start SelectCase.tick env).2.1 =
      (refreshTick lower c task.messageID (start + maxUpdateDuration) env).1) ∧
    ((loopIteration lower tasks c task start SelectCase.tick env).2.1 = LoopState.stopped →
      (loopIteration lower tasks c task start SelectCase.tick env).2.2 =
        (refreshTick lower c task.messageID (start + maxUpdateDuration) env).2 ++
          [Effect.loopExit task.ptr]) ∧
    ((loopIteration lower tasks c task start SelectCase.tick env).2.1 = LoopState.running →
      (loopIteration lower tasks c task start SelectCase.tick env).2.2 =
        (refreshTick lower c task.messageID (start + maxUpdateDuration) env).2) := by
  simp only [loopIteration]
  generalize refreshTick lower c task.messageID (start + maxUpdateDuration) env = r
  rcases r with ⟨st, eff⟩
  cases st <;> simp

/-- C5: one timer tick of the refresh loop of a task started at `start`
(deadline `start` + 10 minutes).  The loop returns on this tick exactly when
the clock is strictly after the deadline, or the report was produced and the
edit failed with an error whose lower-cased text contains one of the three
terminal texts; in that case the deferred self-removal has run and the chat no
longer has this task as its entry.  Otherwise the task stays running and the
registry is unchanged.  After the deadline neither the report function nor an
edit is called, and when the report fails no edit is attempted. -/
theorem refresh_tick_exit_spec (lower : Char → Char) (tasks : Tasks) (chatID : ChatID)
    (task : UpdateTask) (start : Int) (env : TickEnv) :
    maxUpdateDuration = 600000000000 ∧
    ((loopIteration lower tasks chatID task start SelectCase.tick env).2.1 = LoopState.stopped ↔
      env.now > start + maxUpdateDuration ∨
      ∃ text err, env.updateFn = Except.ok text ∧
        env.editMessage chatID task.messageID text = some err ∧
        (stringsContains (stringsToLower lower err) "message to edit not found" = true ∨
          stringsContains (stringsToLower lower err) "message can\x27t be edited" = true ∨
          stringsContains (stringsToLower lower err) "message is too old" = true)) ∧
    ((loopIteration lower tasks chatID task start SelectCase.tick env).2.1 = LoopState.stopped →
      (loopIteration lower tasks chatID task start SelectCase.tick env).1 =
        selfRemove tasks chatID task ∧
      (∀ cur, (loopIteration lower tasks chatID task start SelectCase.tick env).1 chatID =
        some cur → cur.ptr ≠ task.ptr) ∧
      Effect.loopExit task.ptr ∈
        (loopIteration lower tasks chatID task start SelectCase.tick env).2.2) ∧
    ((loopIteration lower tasks chatID task start SelectCase.tick env).2.1 ≠ LoopState.stopped →
      (loopIteration lower tasks chatID task start SelectCase.tick env).2.1 = LoopState.running ∧
      (loopIteration lower tasks chatID task start SelectCase.tick env).1 = tasks ∧
      Effect.loopExit task.ptr ∉
        (loopIteration lower tasks chatID task start SelectCase.tick env).2.2) ∧
    (env.now > start + maxUpdateDuration →
      (loopIteration lower tasks chatID task start SelectCase.tick env).2.2 =
        [Effect.loopExit task.ptr]) ∧
    (∀ err, env.updateFn = Except.error err →
      ∀ d m t, Effect.editMessage d m t ∉
        (loopIteration lower tasks chatID task start SelectCase.tick env).2.2) := by
  obtain ⟨hst, heS, heR⟩ := loopIteration_tick lower tasks chatID task start env
  obtain ⟨hlate, hfail⟩ :=
    refreshTick_effects lower chatID task.messageID (start + maxUpdateDuration) env
  have hcases : ∀ s : LoopState, s ≠ LoopState.stopped → s = LoopState.running := by
    intro s hs
    cases s
    · rfl
    · exact absurd rfl hs
  have hnoexit : Effect.loopExit task.ptr ∉
      (refreshTick lower chatID task.messageID (start + maxUpdateDuration) env).2 := by
    unfold refreshTick
    split_ifs
    · simp
    · split
      · simp
      · split
        · split_ifs <;> simp
        · simp
  refine ⟨by decide, ?_, ?_, ?_, ?_, ?_⟩
  · rw [hst]
    exact refreshTick_stopped_iff lower chatID task.messageID (start + maxUpdateDuration) env
  · intro h
    have ht := loopIteration_stopped_tasks lower tasks chatID task start SelectCase.tick env h
    refine ⟨ht, ?_, ?_⟩
    · rw [ht]
      exact selfRemove_not_self tasks chatID task
    · rw [heS h]
      simp
  · intro h
    have hr := hcases _ h
    refine ⟨hr, loopIteration_running_tasks lower tasks chatID task start SelectCase.tick env hr, ?_⟩
    rw [heR hr]
    exact hnoexit
  · intro hd
    have hs : (loopIteration lower tasks chatID task start SelectCase.tick env).2.1 =
        LoopState.stopped := by
      rw [hst]
      exact (refreshTick_stopped_iff lower chatID task.messageID _ env).2 (Or.inl hd)
    rw [heS hs, hlate hd]
    rfl
  · intro err hu d m t hin
    by_cases hs : (loopIteration lower tasks chatID task start SelectCase.tick env).2.1 =
        LoopState.stopped
    · rw [heS hs] at hin
      rcases List.mem_append.1 hin with h | h
      · exact hfail err hu d m t h
      · simp at h
    · rw [heR (hcases _ hs)] at hin
      exact hfail err hu d m t hin

theorem refresh_tick_exit_spec_witness :
    ((loopIteration Char.toLower exampleTasks 7 { ptr := 3, messageID := 42 } 0 SelectCase.tick
        exampleGoneEnv).1 = selfRemove exampleTasks 7 { ptr := 3, messageID := 42 } ∧
      (∀ cur, (loopIteration Char.toLower exampleTasks 7 { ptr := 3, messageID := 42 } 0
        SelectCase.tick exampleGoneEnv).1 7 = some cur → cur.ptr ≠ 3) ∧
      Effect.loopExit 3 ∈ (loopIteration Char.toLower exampleTasks 7 { ptr := 3, messageID := 42 }
        0 SelectCase.tick exampleGoneEnv).2.2) ∧
    ((loopIteration Char.toLower exampleTasks 7 { ptr := 3, messageID := 42 } 0 SelectCase.tick
        exampleTickEnv).2.1 = LoopState.running ∧
      (loopIteration Char.toLower exampleTasks 7 { ptr := 3, messageID := 42 } 0 SelectCase.tick
        exampleTickEnv).1 = exampleTasks ∧
      Effect.loopExit 3 ∉ (loopIteration Char.toLower exampleTasks 7 { ptr := 3, messageID := 42 }
        0 SelectCase.tick exampleTickEnv).2.2) ∧
    (loopIteration Char.toLower exampleTasks 7 { ptr := 3, messageID := 42 } 0 SelectCase.tick
        exampleLateEnv).2.2 = [Effect.loopExit 3] ∧
    (∀ d m t, Effect.editMessage d m t ∉
      (loopIteration Char.toLower exampleTasks 7 { ptr := 3, messageID := 42 } 0 SelectCase.tick
        exampleLateEnv).2.2) :=
  ⟨(refresh_tick_exit_spec Char.toLower exampleTasks 7 { ptr := 3, messageID := 42 } 0
      exampleGoneEnv).2.2.1
      ((refresh_tick_exit_spec Char.toLower exampleTasks 7 { ptr := 3, messageID := 42 } 0
        exampleGoneEnv).2.1.2
        (Or.inr ⟨"report", "telegram: Bad Request: MESSAGE to edit not found", rfl, rfl,
          Or.inl (by decide)⟩)),
   (refresh_tick_exit_spec Char.toLower exampleTasks 7 { ptr := 3, messageID := 42 } 0
      exampleTickEnv).2.2.2.1 (by decide),
   (refresh_tick_exit_spec Char.toLower exampleTasks 7 { ptr := 3, messageID := 42 } 0
      exampleLateEnv).2.2.2.2.1 (by decide),
   (refresh_tick_exit_spec Char.toLower exampleTasks 7 { ptr := 3, messageID := 42 } 0
      exampleLateEnv).2.2.2.2.2 "no data" rfl⟩

/-! ## Theorems: `EditMessage` and the text "message is not modified" -/

/-- `stringsContains` is the infix relation on the runes. -/
theorem stringsContains_iff (s substr : String) :
    stringsContains s substr = true ↔ substr.toList <:+: s.toList := by
  simp only [stringsContains, List.any_eq_true, List.mem_tails, List.isPrefixOf_iff_prefix]
  constructor
  · rintro ⟨t, ht, hp⟩
    exact List.IsInfix.trans hp.isInfix ht.isInfix
  · intro h
    obtain ⟨t, hp, ht⟩ := List.infix_iff_prefix_suffix.1 h
    exact ⟨t, ht, hp⟩

/-- When `doRequest` fails with a text that contains "message is not
modified", `EditMessage` returns `nil`. -/
theorem EditMessage_not_modified_error (outcome : HttpOutcome) (err : String)
    (h : doRequest outcome = Except.error err)
    (hc : stringsContains err "message is not modified" = true) : EditMessage outcome = none := by
  simp [EditMessage, h, hc]

/-- A response with a status outside 200..299 whose body contains "message is
not modified" makes `EditMessage` return `nil`. -/
theorem EditMessage_not_modified_status (statusCode : Int) (body : String)
    (decoded : Except String APIResponse) (hs : statusCode < 200 ∨ statusCode ≥ 300)
    (hc : stringsContains body "message is not modified" = true) :
    EditMessage (HttpOutcome.response statusCode body decoded) = none := by
  apply EditMessage_not_modified_error _ ("telegram error: " ++ body)
  · simp [doRequest, hs]
  · rw [stringsContains_iff] at hc ⊢
    have : ("telegram error: " ++ body).toList = "telegram error: ".toList ++ body.toList := by
      simp
    rw [this]
    exact List.IsInfix.trans hc (List.suffix_append _ _).isInfix

/-- C6 (the code at the failing input): an edit answered with status 200 and
a body that decodes to `ok = false` with the description "Bad Request: message
is not modified" makes `EditMessage` return the error
"telegram: Bad Request: message is not modified", and the refresh tick then
writes the log line "edit error: ..." (the task stays running); the same
answer with status 400 makes `EditMessage` return `nil` and the tick writes
nothing. -/
theorem EditMessage_not_modified_ok_false :
    EditMessage exampleNotModified = some "telegram: Bad Request: message is not modified" ∧
    refreshTick Char.toLower 7 42 600000000000 (exampleEditEnv exampleNotModified) =
      (LoopState.running, [Effect.report, Effect.editMessage 7 42 "report",
        Effect.log "edit error: telegram: Bad Request: message is not modified"]) ∧
    EditMessage exampleNotModified400 = none ∧
    refreshTick Char.toLower 7 42 600000000000 (exampleEditEnv exampleNotModified400) =
      (LoopState.running, [Effect.report, Effect.editMessage 7 42 "report"]) := by
  have h1 : EditMessage exampleNotModified =
      some "telegram: Bad Request: message is not modified" := by decide
  have h2 : EditMessage exampleNotModified400 = none := by decide
  have h3 : shouldStopOnEditError Char.toLower
      (some "telegram: Bad Request: message is not modified") = false := by decide
  refine ⟨h1, ?_, h2, ?_⟩
  · simp [refreshTick, exampleEditEnv, h1, h3]
  · simp [refreshTick, exampleEditEnv, h2]

/-! ## Theorems: the directory watcher -/

theorem mem_broadcast (allowed : List ChatID) (msg msg' : String) (u : ChatID) :
    Effect.sendMessage u msg ∈ broadcast allowed msg' ↔ u ∈ allowed ∧ msg = msg' := by
  simp only [broadcast, List.mem_map, Effect.sendMessage.injEq]
  constructor
  · rintro ⟨v, hv, rfl, rfl⟩
    exact ⟨hv, rfl⟩
  · rintro ⟨hu, rfl⟩
    exact ⟨u, hu, rfl, rfl⟩

/-- Every range over the map visits exactly its keys. -/
theorem AllowedMap.mem_range (allowed : AllowedMap) (sent : List Effect) (u : ChatID) :
    u ∈ allowed.range sent ↔ u ∈ allowed.keys :=
  (allowed.range_perm sent).mem_iff

/-- A fan-out over the map sends its text to a key exactly once. -/
theorem AllowedMap.count_broadcast (allowed : AllowedMap) (sent : List Effect) (msg : String)
    {u : ChatID} (hu : u ∈ allowed.keys) :
    (broadcast (allowed.range sent) msg).count (Effect.sendMessage u msg) = 1 := by
  have hinj : Function.Injective (fun u : ChatID => Effect.sendMessage u msg) := by
    intro a b h
    simpa using h
  unfold broadcast
  rw [List.count_map_of_injective _ _ hinj, (allowed.range_perm sent).count_eq]
  exact List.count_eq_one_of_mem allowed.nodup hu

/-- A fan-out sends no other text. -/
theorem count_broadcast_of_ne (l : List ChatID) {msg msg' : String} (h : msg ≠ msg')
    (u : ChatID) : (broadcast l msg').count (Effect.sendMessage u msg) = 0 := by
  rw [List.count_eq_zero]
  intro hin
  exact h ((mem_broadcast l msg msg' u).1 hin).2

/-- A fan-out over the map makes as many calls as the map has keys. -/
theorem AllowedMap.length_broadcast (allowed : AllowedMap) (sent : List Effect) (msg : String) :
    (broadcast (allowed.range sent) msg).length = allowed.keys.length := by
  unfold broadcast
  rw [List.length_map]
  exact (allowed.range_perm sent).length_eq

/-- The two texts of `monitorDirs` differ in their second rune. -/
theorem dirGoneMsg_ne_dirBackMsg (d d' : String) (n : Int) : dirGoneMsg d ≠ dirBackMsg d' n := by
  intro h
  have := congrArg (fun s => s.toList.take 2) h
  simp [dirGoneMsg, dirBackMsg] at this

/-- What one step of `monitorDirs` sends, by cases on the sampled baseline. -/
theorem monitorDirsStep_effects (allowed : AllowedMap) (prev counts : String → Int)
    (sent : List Effect) (d : String) (hp : prev d ≥ 0) :
    (monitorDirsStep allowed counts (prev, sent) d).2 =
      sent ++
        if prev d > 0 ∧ counts d = 0 then broadcast (allowed.range sent) (dirGoneMsg d)
        else if prev d = 0 ∧ counts d > 0 then
          broadcast (allowed.range sent) (dirBackMsg d (counts d))
        else [] := by
  simp [monitorDirsStep, hp]

/-- The counts 3, 3, 0, 0, 2 of one directory from the unsampled start. -/
theorem monitorDirs_sequence (allowed : AllowedMap) (d : String) :
    (monitorDirs allowed [d] [fun _ => 3]).2 = [] ∧
    (monitorDirs allowed [d] [fun _ => 3, fun _ => 3]).2 = [] ∧
    (monitorDirs allowed [d] [fun _ => 3, fun _ => 3, fun _ => 0]).2 =
      broadcast (allowed.range []) (dirGoneMsg d) ∧
    (monitorDirs allowed [d] [fun _ => 3, fun _ => 3, fun _ => 0, fun _ => 0]).2 =
      broadcast (allowed.range []) (dirGoneMsg d) ∧
    (monitorDirs allowed [d] [fun _ => 3, fun _ => 3, fun _ => 0, fun _ => 0, fun _ => 2]).2 =
      broadcast (allowed.range []) (dirGoneMsg d) ++
        broadcast (allowed.range (broadcast (allowed.range []) (dirGoneMsg d)))
          (dirBackMsg d 2) := by
  refine ⟨?_, ?_, ?_, ?_, ?_⟩ <;>
    simp [monitorDirs, monitorDirsTick, monitorDirsStep, monitorDirsInit, mapSet]

/-- C7: one step of `monitorDirs` for a directory whose baseline `prev d` is
already sampled (at least 0) and whose current count is `counts d`, after
`sent`.  The "processes gone" alert goes to the allowed users, once each in
the order of this range, exactly when the baseline is positive and the count
is 0; the "processes recovered" notice, whose text ends with the count in
decimal, exactly when the baseline is 0 and the count is positive; otherwise
nothing is sent, even when the count changed; the baseline becomes the count.
The two texts are the ones of the source, with the directory in them.  For the
counts 3, 3, 0, 0, 2 of one directory from the unsampled start: nothing after
3 and after 3, 3; the alert at 3 to 0; nothing new at 0 to 0; the notice
with count 2 at 0 to 2, each range in an order of its own; in all every
allowed user got the alert once and the notice once and nothing else. -/
theorem monitorDirs_transition_spec (allowed : AllowedMap) (prev counts : String → Int)
    (sent : List Effect) (d : String) (hp : prev d ≥ 0) :
    ((prev d > 0 ∧ counts d = 0) →
      (monitorDirsStep allowed counts (prev, sent) d).2 =
        sent ++ broadcast (allowed.range sent) (dirGoneMsg d)) ∧
    ((prev d = 0 ∧ counts d > 0) →
      (monitorDirsStep allowed counts (prev, sent) d).2 =
        sent ++ broadcast (allowed.range sent) (dirBackMsg d (counts d))) ∧
    (¬ (prev d > 0 ∧ counts d = 0) → ¬ (prev d = 0 ∧ counts d > 0) →
      (monitorDirsStep allowed counts (prev, sent) d).2 = sent) ∧
    (∃ new, (monitorDirsStep allowed counts (prev, sent) d).2 = sent ++ new ∧
      ∀ u ∈ allowed.keys,
        (Effect.sendMessage u (dirGoneMsg d) ∈ new ↔ prev d > 0 ∧ counts d = 0) ∧
        ((∃ n, Effect.sendMessage u (dirBackMsg d n) ∈ new) ↔ prev d = 0 ∧ counts d > 0) ∧
        (Effect.sendMessage u (dirBackMsg d (counts d)) ∈ new ↔ prev d = 0 ∧ counts d > 0)) ∧
    (∀ u ∈ allowed.keys, ∀ msg,
      (broadcast (allowed.range sent) msg).count (Effect.sendMessage u msg) = 1) ∧
    (monitorDirsStep allowed counts (prev, sent) d).1 d = counts d ∧
    dirGoneMsg d = "‚ö†Ô∏è <b>–ù–µ—Ç –ø—Ä–æ—Ü–µ—Å—Å–æ–≤ –∏–∑ –∫–∞—Ç–∞–ª–æ–≥–∞</b>\n\n<code>" ++ d ++ "</code>" ∧
    (∀ n : Int, dirBackMsg d n = "‚úÖ <b>–ü—Ä–æ—Ü–µ—Å—Å—ã —Å–Ω–æ–≤–∞ –ø–æ—è–≤–∏–ª–∏—Å—å</b>\n\n<code>" ++ d ++ "</code>\n–ö–æ–ª–∏—á–µ—Å—Ç–≤–æ: " ++ toString n) ∧
    dirBackMsg d 2 = "‚úÖ <b>–ü—Ä–æ—Ü–µ—Å—Å—ã —Å–Ω–æ–≤–∞ –ø–æ—è–≤–∏–ª–∏—Å—å</b>\n\n<code>" ++ d ++ "</code>\n–ö–æ–ª–∏—á–µ—Å—Ç–≤–æ: " ++ "2" ∧
    dirBackMsg d 17 = "‚úÖ <b>–ü—Ä–æ—Ü–µ—Å—Å—ã —Å–Ω–æ–≤–∞ –ø–æ—è–≤–∏–ª–∏—Å—å</b>\n\n<code>" ++ d ++ "</code>\n–ö–æ–ª–∏—á–µ—Å—Ç–≤–æ: " ++ "17" ∧
    (monitorDirs allowed [d] [fun _ => 3]).2 = [] ∧
    (monitorDirs allowed [d] [fun _ => 3, fun _ => 3]).2 = [] ∧
    (monitorDirs allowed [d] [fun _ => 3, fun _ => 3, fun _ => 0]).2 =
      broadcast (allowed.range []) (dirGoneMsg d) ∧
    (monitorDirs allowed [d] [fun _ => 3, fun _ => 3, fun _ => 0, fun _ => 0]).2 =
      broadcast (allowed.range []) (dirGoneMsg d) ∧
    (monitorDirs allowed [d] [fun _ => 3, fun _ => 3, fun _ => 0, fun _ => 0, fun _ => 2]).2 =
      broadcast (allowed.range []) (dirGoneMsg d) ++
        broadcast (allowed.range (broadcast (allowed.range []) (dirGoneMsg d)))
          (dirBackMsg d 2) ∧
    (monitorDirs allowed [d]
        [fun _ => 3, fun _ => 3, fun _ => 0, fun _ => 0, fun _ => 2]).2.length =
      2 * allowed.keys.length ∧
    (∀ u ∈ allowed.keys,
      (monitorDirs allowed [d] [fun _ => 3, fun _ => 3, fun _ => 0, fun _ => 0, fun _ => 2]).2.count
          (Effect.sendMessage u (dirGoneMsg d)) = 1 ∧
      (monitorDirs allowed [d] [fun _ => 3, fun _ => 3, fun _ => 0, fun _ => 0, fun _ => 2]).2.count
          (Effect.sendMessage u (dirBackMsg d 2)) = 1) := by
  have he := monitorDirsStep_effects allowed prev counts sent d hp
  obtain ⟨s1, s2, s3, s4, s5⟩ := monitorDirs_sequence allowed d
  refine ⟨?_, ?_, ?_, ?_, ?_, ?_, rfl, fun _ => rfl, rfl, rfl, s1, s2, s3, s4, s5, ?_, ?_⟩
  · intro h
    rw [he, if_pos h]
  · intro h
    have h' : ¬ (prev d > 0 ∧ counts d = 0) := fun h' => by omega
    rw [he, if_neg h', if_pos h]
  · intro h1 h2
    rw [he, if_neg h1, if_neg h2, List.append_nil]
  · refine ⟨_, he, ?_⟩
    intro u hu
    have hur : u ∈ allowed.range sent := (allowed.mem_range sent u).2 hu
    by_cases h1 : prev d > 0 ∧ counts d = 0
    · have h2 : ¬ (prev d = 0 ∧ counts d > 0) := fun h' => by omega
      rw [if_pos h1]
      refine ⟨⟨fun _ => h1, fun _ => (mem_broadcast _ _ _ _).2 ⟨hur, rfl⟩⟩,
        ⟨?_, fun h => absurd h h2⟩, ⟨?_, fun h => absurd h h2⟩⟩
      · rintro ⟨n, hn⟩
        exact absurd ((mem_broadcast _ _ _ _).1 hn).2.symm (dirGoneMsg_ne_dirBackMsg d d n)
      · intro hn
        exact absurd ((mem_broadcast _ _ _ _).1 hn).2.symm (dirGoneMsg_ne_dirBackMsg d d _)
    · by_cases h2 : prev d = 0 ∧ counts d > 0
      · rw [if_neg h1, if_pos h2]
        refine ⟨⟨?_, fun h => absurd h h1⟩,
          ⟨fun _ => h2, fun _ => ⟨counts d, (mem_broadcast _ _ _ _).2 ⟨hur, rfl⟩⟩⟩,
          ⟨fun _ => h2, fun _ => (mem_broadcast _ _ _ _).2 ⟨hur, rfl⟩⟩⟩
        intro hn
        exact absurd ((mem_broadcast _ _ _ _).1 hn).2 (dirGoneMsg_ne_dirBackMsg d d _)
      · rw [if_neg h1, if_neg h2]
        refine ⟨⟨fun h => absurd h (List.not_mem_nil _), fun h => absurd h h1⟩,
          ⟨?_, fun h => absurd h h2⟩,
          ⟨fun h => absurd h (List.not_mem_nil _), fun h => absurd h h2⟩⟩
        rintro ⟨n, hn⟩
        exact absurd hn (List.not_mem_nil _)
  · intro u hu msg
    exact allowed.count_broadcast sent msg hu
  · simp [monitorDirsStep, mapSet]
  · rw [s5, List.length_append, allowed.length_broadcast, allowed.length_broadcast]
    omega
  · intro u hu
    rw [s5, List.count_append, List.count_append, allowed.count_broadcast _ _ hu,
      allowed.count_broadcast _ _ hu,
      count_broadcast_of_ne _ (dirGoneMsg_ne_dirBackMsg d d 2) u,
      count_broadcast_of_ne _ (dirGoneMsg_ne_dirBackMsg d d 2).symm u]
    exact ⟨rfl, rfl⟩

theorem monitorDirs_transition_spec_witness :
    (monitorDirsStep exampleAllowed (fun _ => 0) (fun _ => 3, []) "/srv/app").2 =
      [] ++ broadcast (exampleAllowed.range []) (dirGoneMsg "/srv/app") ∧
    (monitorDirsStep exampleAllowed (fun _ => 2) (fun _ => 0, []) "/srv/app").2 =
      [] ++ broadcast (exampleAllowed.range []) (dirBackMsg "/srv/app" 2) ∧
    (monitorDirsStep exampleAllowed (fun _ => 5) (fun _ => 3, []) "/srv/app").2 = [] ∧
    (broadcast (exampleAllowed.range []) "alert").count (Effect.sendMessage 12 "alert") = 1 :=
  ⟨(monitorDirs_transition_spec exampleAllowed (fun _ => 3) (fun _ => 0) [] "/srv/app"
      (by decide)).1 (by decide),
   (monitorDirs_transition_spec exampleAllowed (fun _ => 0) (fun _ => 2) [] "/srv/app"
      (by decide)).2.1 (by decide),
   (monitorDirs_transition_spec exampleAllowed (fun _ => 3) (fun _ => 5) [] "/srv/app"
      (by decide)).2.2.1 (by decide) (by decide),
   (monitorDirs_transition_spec exampleAllowed (fun _ => 3) (fun _ => 5) [] "/srv/app"
      (by decide)).2.2.2.2.1 12 (by decide) "alert"⟩

/-! ## Theorems: the unit watcher -/

/-- The two texts of `monitorUnits` differ in their second rune. -/
theorem unitDownMsg_ne_unitUpMsg (u u' status : String) : unitDownMsg u status ≠ unitUpMsg u' := by
  intro h
  have := congrArg (fun s => s.toList.take 2) h
  simp [unitDownMsg, unitUpMsg] at this

/-- What one step of `monitorUnits` sends. -/
theorem monitorUnitsStep_effects (allowed : AllowedMap) (prev : String → String)
    (sent : List Effect) (u status : String) :
    (monitorUnitsStep allowed (prev, sent) (u, status)).2 =
      sent ++
        if prev u ≠ "" ∧ status ≠ prev u then
          if status ≠ "active" then broadcast (allowed.range sent) (unitDownMsg u status)
          else broadcast (allowed.range sent) (unitUpMsg u)
        else [] := by
  simp [monitorUnitsStep]

/-- The statuses "active", "failed", "failed", "active" of one unit from the
unsampled start. -/
theorem monitorUnits_sequence (allowed : AllowedMap) (u : String) :
    (monitorUnits allowed [u] [fun _ => "active"]).2 = [] ∧
    (monitorUnits allowed [u] [fun _ => "active", fun _ => "failed"]).2 =
      broadcast (allowed.range []) (unitDownMsg u "failed") ∧
    (monitorUnits allowed [u] [fun _ => "active", fun _ => "failed", fun _ => "failed"]).2 =
      broadcast (allowed.range []) (unitDownMsg u "failed") ∧
    (monitorUnits allowed [u]
        [fun _ => "active", fun _ => "failed", fun _ => "failed", fun _ => "active"]).2 =
      broadcast (allowed.range []) (unitDownMsg u "failed") ++
        broadcast (allowed.range (broadcast (allowed.range []) (unitDownMsg u "failed")))
          (unitUpMsg u) := by
  refine ⟨?_, ?_, ?_, ?_⟩ <;>
    simp [monitorUnits, monitorUnitsTick, monitorUnitsStep, monitorUnitsInit, mapSet]

/-- C8: one step of `monitorUnits` for a unit whose baseline `prev u` is
already sampled (not the empty string) and whose current status is `status`,
after `sent`.  From "active" to another status the alert, whose text names
the unit and ends with the new status, goes to the allowed users, once each in
the order of this range; from another status to "active" the recovery notice,
a different text, goes to them, once each; with an unchanged status nothing is
sent; the baseline becomes the status.  For the statuses "active", "failed",
"failed", "active" of one unit from the unsampled start: nothing after the
first sample, the alert naming "failed" at active to failed, nothing new at
failed to failed, the recovery at failed to active, each range in an order of
its own; in all every allowed user got the alert once and the recovery once
and nothing else. -/
theorem monitorUnits_transition_spec (allowed : AllowedMap) (prev : String → String)
    (sent : List Effect) (u status : String) (hp : prev u ≠ "") :
    ((prev u = "active" ∧ status ≠ "active") →
      (monitorUnitsStep allowed (prev, sent) (u, status)).2 =
        sent ++ broadcast (allowed.range sent) (unitDownMsg u status)) ∧
    ((prev u ≠ "active" ∧ status = "active") →
      (monitorUnitsStep allowed (prev, sent) (u, status)).2 =
        sent ++ broadcast (allowed.range sent) (unitUpMsg u)) ∧
    (status = prev u → (monitorUnitsStep allowed (prev, sent) (u, status)).2 = sent) ∧
    (∀ v ∈ allowed.keys, ∀ msg,
      (broadcast (allowed.range sent) msg).count (Effect.sendMessage v msg) = 1) ∧
    (monitorUnitsStep allowed (prev, sent) (u, status)).1 u = status ∧
    unitDownMsg u status = "‚ö†Ô∏è <b>Unit –Ω–µ –∞–∫—Ç–∏–≤–µ–Ω</b>\n\n<code>" ++ u ++ "</code>\n–°—Ç–∞—Ç—É—Å: " ++ status ∧
    unitUpMsg u = "‚úÖ <b>Unit —Å–Ω–æ–≤–∞ –∞–∫—Ç–∏–≤–µ–Ω</b>\n\n<code>" ++ u ++ "</code>" ∧
    (∀ s : String, unitDownMsg u s ≠ unitUpMsg u) ∧
    (monitorUnits allowed [u] [fun _ => "active"]).2 = [] ∧
    (monitorUnits allowed [u] [fun _ => "active", fun _ => "failed"]).2 =
      broadcast (allowed.range []) (unitDownMsg u "failed") ∧
    (monitorUnits allowed [u] [fun _ => "active", fun _ => "failed", fun _ => "failed"]).2 =
      broadcast (allowed.range []) (unitDownMsg u "failed") ∧
    (monitorUnits allowed [u]
        [fun _ => "active", fun _ => "failed", fun _ => "failed", fun _ => "active"]).2 =
      broadcast (allowed.range []) (unitDownMsg u "failed") ++
        broadcast (allowed.range (broadcast (allowed.range []) (unitDownMsg u "failed")))
          (unitUpMsg u) ∧
    (monitorUnits allowed [u]
        [fun _ => "active", fun _ => "failed", fun _ => "failed", fun _ => "active"]).2.length =
      2 * allowed.keys.length ∧
    (∀ v ∈ allowed.keys,
      (monitorUnits allowed [u]
          [fun _ => "active", fun _ => "failed", fun _ => "failed", fun _ => "active"]).2.count
          (Effect.sendMessage v (unitDownMsg u "failed")) = 1 ∧
      (monitorUnits allowed [u]
          [fun _ => "active", fun _ => "failed", fun _ => "failed", fun _ => "active"]).2.count
          (Effect.sendMessage v (unitUpMsg u)) = 1) := by
  have he := monitorUnitsStep_effects allowed prev sent u status
  obtain ⟨s1, s2, s3, s4⟩ := monitorUnits_sequence allowed u
  refine ⟨?_, ?_, ?_, ?_, ?_, rfl, rfl, fun s => unitDownMsg_ne_unitUpMsg u u s, s1, s2, s3, s4,
    ?_, ?_⟩
  · rintro ⟨h1, h2⟩
    have h3 : status ≠ prev u := fun h => h2 (h.trans h1)
    rw [he, if_pos ⟨hp, h3⟩, if_pos h2]
  · rintro ⟨h1, h2⟩
    have h3 : status ≠ prev u := fun h => h1 (h.symm.trans h2)
    rw [he, if_pos ⟨hp, h3⟩, if_neg (not_not.2 h2)]
  · intro h
    rw [he, if_neg (fun h' => h'.2 h), List.append_nil]
  · intro v hv msg
    exact allowed.count_broadcast sent msg hv
  · simp [monitorUnitsStep, mapSet]
  · rw [s4, List.length_append, allowed.length_broadcast, allowed.length_broadcast]
    omega
  · intro v hv
    rw [s4, List.count_append, List.count_append, allowed.count_broadcast _ _ hv,
      allowed.count_broadcast _ _ hv,
      count_broadcast_of_ne _ (unitDownMsg_ne_unitUpMsg u u "failed") v,
      count_broadcast_of_ne _ (unitDownMsg_ne_unitUpMsg u u "failed").symm v]
    exact ⟨rfl, rfl⟩

theorem monitorUnits_transition_spec_witness :
    (monitorUnitsStep exampleAllowed (fun _ => "active", []) ("nginx.service", "failed")).2 =
      [] ++ broadcast (exampleAllowed.range []) (unitDownMsg "nginx.service" "failed") ∧
    (monitorUnitsStep exampleAllowed (fun _ => "failed", []) ("nginx.service", "active")).2 =
      [] ++ broadcast (exampleAllowed.range []) (unitUpMsg "nginx.service") ∧
    (monitorUnitsStep exampleAllowed (fun _ => "failed", []) ("nginx.service", "failed")).2 =
      [] ∧
    (broadcast (exampleAllowed.range []) "alert").count (Effect.sendMessage 12 "alert") = 1 :=
  ⟨(monitorUnits_transition_spec exampleAllowed (fun _ => "active") [] "nginx.service" "failed"
      (by decide)).1 (by decide),
   (monitorUnits_transition_spec exampleAllowed (fun _ => "failed") [] "nginx.service" "active"
      (by decide)).2.1 (by decide),
   (monitorUnits_transition_spec exampleAllowed (fun _ => "failed") [] "nginx.service" "failed"
      (by decide)).2.2.1 (by decide),
   (monitorUnits_transition_spec exampleAllowed (fun _ => "failed") [] "nginx.service" "failed"
      (by decide)).2.2.2.1 12 (by decide) "alert"⟩

/-- C9 (counterexample): the unit `nginx.service` is sampled "failed" and on
the next tick "inactive", both different from "active"; the second tick sends
the alert, whose text ends with "inactive", to both allowed users. -/
theorem monitorUnits_nonactive_change_alerts :
    "failed" ≠ "active" ∧ "inactive" ≠ "active" ∧
    (monitorUnits exampleAllowed ["nginx.service"] [fun _ => "failed"]) =
      (mapSet (monitorUnitsInit ["nginx.service"]) "nginx.service" "failed", []) ∧
    (monitorUnits exampleAllowed ["nginx.service"] [fun _ => "failed"]).1 "nginx.service" =
      "failed" ∧
    (monitorUnits exampleAllowed ["nginx.service"] [fun _ => "failed", fun _ => "inactive"]).2 =
      [Effect.sendMessage 11 (unitDownMsg "nginx.service" "inactive"),
        Effect.sendMessage 12 (unitDownMsg "nginx.service" "inactive")] ∧
    (monitorUnits exampleAllowed ["nginx.service"] [fun _ => "failed", fun _ => "inactive"]).2 ≠
      [] ∧
    unitDownMsg "nginx.service" "inactive" =
      "‚ö†Ô∏è <b>Unit –Ω–µ –∞–∫—Ç–∏–≤–µ–Ω</b>\n\n<code>" ++ "nginx.service" ++ "</code>\n–°—Ç–∞—Ç—É—Å: " ++ "inactive" := by
  have h : (monitorUnits exampleAllowed ["nginx.service"]
        [fun _ => "failed", fun _ => "inactive"]).2 =
      [Effect.sendMessage 11 (unitDownMsg "nginx.service" "inactive"),
        Effect.sendMessage 12 (unitDownMsg "nginx.service" "inactive")] := by
    simp [monitorUnits, monitorUnitsTick, monitorUnitsStep, monitorUnitsInit, mapSet, broadcast,
      exampleAllowed]
  refine ⟨by decide, by decide, ?_, ?_, h, ?_, rfl⟩
  · simp [monitorUnits, monitorUnitsTick, monitorUnitsStep, monitorUnitsInit, mapSet]
  · simp [monitorUnits, monitorUnitsTick, monitorUnitsStep, monitorUnitsInit, mapSet]
  · rw [h]
    simp

/-- C9 (amended): one step of `monitorUnits`, after `sent`, with a baseline
and a status that are both different from "active".  Nothing is sent when the
status equals the baseline or the baseline is the unsampled empty string;
when the baseline is sampled and the status differs from it, the alert, whose
text names the unit and ends with the new status, goes to the allowed users,
once each.  The baseline becomes the status in both cases. -/
theorem monitorUnits_nonactive_spec (allowed : AllowedMap) (prev : String → String)
    (sent : List Effect) (u status : String) (_hp : prev u ≠ "active")
    (hc : status ≠ "active") :
    ((prev u = "" ∨ status = prev u) →
      (monitorUnitsStep allowed (prev, sent) (u, status)).2 = sent) ∧
    ((prev u ≠ "" ∧ status ≠ prev u) →
      (monitorUnitsStep allowed (prev, sent) (u, status)).2 =
        sent ++ broadcast (allowed.range sent) (unitDownMsg u status)) ∧
    (∀ v ∈ allowed.keys,
      (broadcast (allowed.range sent) (unitDownMsg u status)).count
        (Effect.sendMessage v (unitDownMsg u status)) = 1) ∧
    (broadcast (allowed.range sent) (unitDownMsg u status)).length = allowed.keys.length ∧
    unitDownMsg u status = "‚ö†Ô∏è <b>Unit –Ω–µ –∞–∫—Ç–∏–≤–µ–Ω</b>\n\n<code>" ++ u ++ "</code>\n–°—Ç–∞—Ç—É—Å: " ++ status ∧
    (monitorUnitsStep allowed (prev, sent) (u, status)).1 u = status := by
  have he := monitorUnitsStep_effects allowed prev sent u status
  refine ⟨?_, ?_, fun v hv => allowed.count_broadcast sent _ hv, allowed.length_broadcast sent _,
    rfl, by simp [monitorUnitsStep, mapSet]⟩
  · intro h
    rw [he, if_neg, List.append_nil]
    rintro ⟨h1, h2⟩
    rcases h with h | h
    · exact h1 h
    · exact h2 h
  · intro h
    rw [he, if_pos h, if_pos hc]

theorem monitorUnits_nonactive_spec_witness :
    (monitorUnitsStep exampleAllowed (fun _ => "failed", []) ("nginx.service", "failed")).2 =
      [] ∧
    (monitorUnitsStep exampleAllowed (fun _ => "failed", []) ("nginx.service", "inactive")).2 =
      [] ++ broadcast (exampleAllowed.range []) (unitDownMsg "nginx.service" "inactive") ∧
    (broadcast (exampleAllowed.range []) (unitDownMsg "nginx.service" "inactive")).count
      (Effect.sendMessage 12 (unitDownMsg "nginx.service" "inactive")) = 1 :=
  ⟨(monitorUnits_nonactive_spec exampleAllowed (fun _ => "failed") [] "nginx.service" "failed"
      (by decide) (by decide)).1 (Or.inr rfl),
   (monitorUnits_nonactive_spec exampleAllowed (fun _ => "failed") [] "nginx.service" "inactive"
      (by decide) (by decide)).2.1 ⟨by decide, by decide⟩,
   (monitorUnits_nonactive_spec exampleAllowed (fun _ => "failed") [] "nginx.service" "inactive"
      (by decide) (by decide)).2.2.1 12 (by decide)⟩

/-! ## Theorems: the first sample of a watcher -/

theorem monitorDirsInit_fold (dirs : List String) (p : String → Int) (x : String) :
    dirs.foldl (fun prev d => mapSet prev d (-1)) p x = if x ∈ dirs then -1 else p x := by
  induction dirs generalizing p with
  | nil => simp
  | cons d ds ih =>
    rw [List.foldl_cons, ih]
    by_cases hx : x ∈ ds
    · simp [hx]
    · by_cases hd : x = d
      · simp [hx, hd, mapSet]
      · simp [hx, hd, mapSet]

/-- Before the first tick every watched directory has the baseline -1. -/
theorem monitorDirsInit_of_mem {dirs : List String} {d : String} (h : d ∈ dirs) :
    monitorDirsInit dirs d = -1 := by
  unfold monitorDirsInit
  rw [monitorDirsInit_fold, if_pos h]

/-- A tick of `monitorDirs` over directories whose baselines are -1 or
already this tick's count sends nothing and leaves this tick's counts. -/
theorem monitorDirs_fold_quiet (allowed : AllowedMap) (counts : String → Int) (l : List String) :
    ∀ (prev : String → Int) (eff : List Effect),
      (∀ d ∈ l, prev d = -1 ∨ prev d = counts d) →
      (l.foldl (monitorDirsStep allowed counts) (prev, eff)).2 = eff ∧
      ∀ d ∈ l, (l.foldl (monitorDirsStep allowed counts) (prev, eff)).1 d = counts d := by
  induction l with
  | nil => intro prev eff _; simp
  | cons a l ih =>
    intro prev eff h
    rw [List.foldl_cons]
    have hstep : monitorDirsStep allowed counts (prev, eff) a = (mapSet prev a (counts a), eff) := by
      rcases h a (List.mem_cons_self a l) with ha | ha
      · simp [monitorDirsStep, ha]
      · have h1 : ¬ (counts a > 0 ∧ counts a = 0) := fun h' => by omega
        have h2 : ¬ (counts a = 0 ∧ counts a > 0) := fun h' => by omega
        simp [monitorDirsStep, ha, h1, h2]
    rw [hstep]
    have h' : ∀ d ∈ l, mapSet prev a (counts a) d = -1 ∨ mapSet prev a (counts a) d = counts d := by
      intro d hd
      by_cases hda : d = a
      · subst hda
        right
        simp [mapSet]
      · simpa [mapSet, hda] using h d (List.mem_cons_of_mem a hd)
    obtain ⟨h1, h2⟩ := ih (mapSet prev a (counts a)) eff h'
    refine ⟨h1, ?_⟩
    intro d hd
    rcases List.mem_cons.1 hd with hda | hdl
    · by_cases hal : a ∈ l
      · rw [hda]
        exact h2 a hal
      · have hkeep : ∀ (l' : List String) (st : (String → Int) × List Effect), a ∉ l' →
            (l'.foldl (monitorDirsStep allowed counts) st).1 a = st.1 a := by
          intro l'
          induction l' with
          | nil => intro st _; rfl
          | cons b l' ih' =>
            intro st hb
            rw [List.foldl_cons, ih' _ (fun hm => hb (List.mem_cons_of_mem b hm))]
            have hab : a ≠ b := fun hab => hb (hab ▸ List.mem_cons_self a l')
            simp [monitorDirsStep, mapSet, hab]
        rw [hda, hkeep l _ hal]
        simp [mapSet]
    · exact h2 d hdl

/-- A step of `monitorUnits` on an unsampled baseline sends nothing and
records the status. -/
theorem monitorUnitsStep_first (allowed : AllowedMap) (prev : String → String)
    (eff : List Effect) (u status : String) (h : prev u = "") :
    monitorUnitsStep allowed (prev, eff) (u, status) = (mapSet prev u status, eff) := by
  simp [monitorUnitsStep, h]

/-- Before the first tick every baseline of `monitorUnits` is the empty string. -/
theorem monitorUnitsInit_eq (units : List String) (u : String) : monitorUnitsInit units u = "" := by
  unfold monitorUnitsInit
  have : ∀ (l : List String) (p : String → String), p u = "" →
      l.foldl (fun prev u => mapSet prev u "") p u = "" := by
    intro l
    induction l with
    | nil => intro p hp; exact hp
    | cons a l ih =>
      intro p hp
      rw [List.foldl_cons]
      apply ih
      by_cases hua : u = a
      · simp [mapSet, hua]
      · simp [mapSet, hua, hp]
  exact this units _ rfl

/-- Samples of distinct units on unsampled baselines send nothing. -/
theorem monitorUnits_fold_quiet (allowed : AllowedMap) (l : List (String × String)) :
    ∀ (prev : String → String) (eff : List Effect),
      (l.map Prod.fst).Nodup → (∀ s ∈ l, prev s.1 = "") →
      (l.foldl (monitorUnitsStep allowed) (prev, eff)).2 = eff ∧
      ∀ s ∈ l, (l.foldl (monitorUnitsStep allowed) (prev, eff)).1 s.1 = s.2 := by
  induction l with
  | nil => intro prev eff _ _; simp
  | cons a l ih =>
    intro prev eff hnd h
    rw [List.foldl_cons]
    obtain ⟨u, status⟩ := a
    rw [monitorUnitsStep_first allowed prev eff u status (h (u, status) (List.mem_cons_self _ _))]
    simp only [List.map_cons, List.nodup_cons] at hnd
    have hne : ∀ s ∈ l, s.1 ≠ u := by
      intro s hs hsu
      exact hnd.1 (hsu ▸ List.mem_map_of_mem Prod.fst hs)
    have h' : ∀ s ∈ l, mapSet prev u status s.1 = "" := by
      intro s hs
      simpa [mapSet, hne s hs] using h s (List.mem_cons_of_mem _ hs)
    obtain ⟨h1, h2⟩ := ih (mapSet prev u status) eff hnd.2 h'
    refine ⟨h1, ?_⟩
    intro s hs
    rcases List.mem_cons.1 hs with hsa | hsl
    · have hkeep : ∀ (l' : List (String × String)) (st : (String → String) × List Effect),
          (∀ s ∈ l', s.1 ≠ u) → (l'.foldl (monitorUnitsStep allowed) st).1 u = st.1 u := by
        intro l'
        induction l' with
        | nil => intro st _; rfl
        | cons b l' ih' =>
          intro st hb
          rw [List.foldl_cons, ih' _ (fun s hm => hb s (List.mem_cons_of_mem b hm))]
          have hab : u ≠ b.1 := fun hab => hb b (List.mem_cons_self b l') hab.symm
          simp [monitorUnitsStep, mapSet, hab]
      rw [hsa]
      simp only
      rw [hkeep l _ hne]
      simp [mapSet]
    · exact h2 s hsl

/-- Rounds of `monitorReboot` whose boot time cannot be read change nothing. -/
theorem monitorReboot_fold_unread (format : Time → String) (allowed : AllowedMap)
    (fails : List Time) (hf : ∀ t ∈ fails, t.IsZero = true) :
    ∀ st : RebootState × List Effect, fails.foldl (monitorRebootStep format allowed) st = st := by
  induction fails with
  | nil => intro st; rfl
  | cons t ts ih =>
    intro st
    rw [List.foldl_cons]
    have ht : monitorRebootStep format allowed st t = st := by
      simp [monitorRebootStep, hf t (List.mem_cons_self t ts)]
    rw [ht]
    exact ih (fun t' ht' => hf t' (List.mem_cons_of_mem t ht')) st

/-- C10: the first successful sample of a watched key is recorded and sends
nothing, whatever its value.  `monitorReboot`: nothing is sent at start-up nor
while reads fail, the baseline being the boot time read at start-up; when
that read failed, the first boot time read in the loop (after any number of
failed reads) becomes the baseline and nothing is sent.  `monitorDirs`: every
watched directory starts at -1, a step on the baseline -1 sends nothing and
records the count, and the whole first tick sends nothing.  `monitorUnits`:
every baseline starts empty, a step on the empty baseline sends nothing and
records the status, and the first tick over distinct units sends nothing. -/
theorem watchers_first_sample_silent (format : Time → String) (allowed : AllowedMap) :
    (∀ (boot : Time) (fails : List Time) (v : Time), (∀ t ∈ fails, t.IsZero = true) →
      monitorReboot format allowed boot fails = ({ lastBoot := boot, first := true }, []) ∧
      (boot.IsZero = true → v.IsZero = false →
        monitorReboot format allowed boot (fails ++ [v]) =
          ({ lastBoot := v, first := false }, []))) ∧
    (∀ (dirs : List String) (counts : String → Int) (sent : List Effect),
      (monitorDirsTick allowed dirs (monitorDirsInit dirs, sent) counts).2 = sent ∧
      ∀ d ∈ dirs, monitorDirsInit dirs d = -1 ∧
        (monitorDirsTick allowed dirs (monitorDirsInit dirs, sent) counts).1 d = counts d) ∧
    (∀ (prev counts : String → Int) (eff : List Effect) (d : String), prev d = -1 →
      monitorDirsStep allowed counts (prev, eff) d = (mapSet prev d (counts d), eff)) ∧
    (∀ (prev : String → String) (eff : List Effect) (u status : String), prev u = "" →
      monitorUnitsStep allowed (prev, eff) (u, status) = (mapSet prev u status, eff)) ∧
    (∀ (units : List String) (status : Nat → String) (sent : List Effect),
      (∀ u, monitorUnitsInit units u = "") ∧
      (units.Nodup →
        (monitorUnitsTick allowed units (monitorUnitsInit units, sent) status).2 = sent ∧
        ∀ (i : Nat) (h : i < units.length),
          (monitorUnitsTick allowed units (monitorUnitsInit units, sent) status).1 units[i] =
            status i)) := by
  refine ⟨?_, ?_, ?_, ?_, ?_⟩
  · intro boot fails v hf
    have h0 : monitorReboot format allowed boot fails =
        ({ lastBoot := boot, first := true }, []) := by
      unfold monitorReboot
      rw [monitorReboot_fold_unread format allowed fails hf]
      rfl
    refine ⟨h0, ?_⟩
    intro hb hv
    have hne : v ≠ boot := by
      rintro rfl
      rw [hb] at hv
      cases hv
    have hrun : monitorReboot format allowed boot (fails ++ [v]) =
        monitorRebootStep format allowed (monitorReboot format allowed boot fails) v := by
      simp [monitorReboot, List.foldl_append]
    rw [hrun, h0]
    simp [monitorRebootStep, hv, hne]
  · intro dirs counts sent
    have hq := monitorDirs_fold_quiet allowed counts dirs (monitorDirsInit dirs) sent
      (fun d hd => Or.inl (monitorDirsInit_of_mem hd))
    exact ⟨hq.1, fun d hd => ⟨monitorDirsInit_of_mem hd, hq.2 d hd⟩⟩
  · intro prev counts eff d h
    simp [monitorDirsStep, h]
  · intro prev eff u status h
    exact monitorUnitsStep_first allowed prev eff u status h
  · intro units status sent
    refine ⟨monitorUnitsInit_eq units, ?_⟩
    intro hnd
    have hkeys : ((units.enum.map (fun iu => (iu.2, status iu.1))).map Prod.fst) = units := by
      rw [List.map_map]
      exact List.enum_map_snd units
    have hq := monitorUnits_fold_quiet allowed (units.enum.map (fun iu => (iu.2, status iu.1)))
      (monitorUnitsInit units) sent (by rw [hkeys]; exact hnd)
      (fun s _ => monitorUnitsInit_eq units s.1)
    refine ⟨hq.1, ?_⟩
    intro i h
    have hmem : (units[i], status i) ∈ units.enum.map (fun iu => (iu.2, status iu.1)) := by
      refine List.mem_map.2 ⟨(i, units[i]), ?_, rfl⟩
      rw [List.mk_mem_enum_iff_getElem?]
      exact List.getElem?_eq_getElem h
    exact hq.2 _ hmem

theorem watchers_first_sample_silent_witness :
    (monitorReboot exampleFormat exampleAllowed Time.zero [Time.zero, Time.zero] =
        ({ lastBoot := Time.zero, first := true }, []) ∧
      monitorReboot exampleFormat exampleAllowed Time.zero
          ([Time.zero, Time.zero] ++ [exampleBoot]) =
        ({ lastBoot := exampleBoot, first := false }, [])) ∧
    monitorDirsStep exampleAllowed (fun _ => 4) (fun _ => -1, []) "/srv/app" =
      (mapSet (fun _ => -1) "/srv/app" 4, []) ∧
    monitorUnitsStep exampleAllowed (fun _ => "", []) ("nginx.service", "failed") =
      (mapSet (fun _ => "") "nginx.service" "failed", []) ∧
    (monitorUnitsTick exampleAllowed ["nginx.service", "redis.service"]
        (monitorUnitsInit ["nginx.service", "redis.service"], []) (fun _ => "failed")).2 = [] :=
  have h := watchers_first_sample_silent exampleFormat exampleAllowed
  have hr := h.1 Time.zero [Time.zero, Time.zero] exampleBoot (by decide)
  ⟨⟨hr.1, hr.2 (by decide) (by decide)⟩,
   h.2.2.1 (fun _ => -1) (fun _ => 4) [] "/srv/app" rfl,
   h.2.2.2.1 (fun _ => "") [] "nginx.service" "failed" rfl,
   ((h.2.2.2.2 ["nginx.service", "redis.service"] (fun _ => "failed") []).2 (by decide)).1⟩

/-! ## Theorems: samples and sentinels -/

theorem systemdUnitStatus_ne_empty (r : CommandOutcome) : systemdUnitStatus r ≠ "" := by
  have hlate : (if stringsTrimSpace r.out = "" then "unknown" else stringsTrimSpace r.out) ≠ "" := by
    split_ifs with h
    · decide
    · exact h
  unfold systemdUnitStatus
  rcases r with ⟨out, err⟩
  cases err with
  | none => exact hlate
  | some e =>
    cases e with
    | other => exact hlate
    | exitError stderr =>
      by_cases h : stringsTrimSpace stderr = ""
      · simp only [h]
        exact hlate
      · simp [h]

theorem counts_fold_nonneg {α : Type} (l : List α) (f : (String → Int) → α → String → Int)
    (hf : ∀ counts a, (∀ x, 0 ≤ counts x) → ∀ x, 0 ≤ f counts a x) :
    ∀ counts : String → Int, (∀ x, 0 ≤ counts x) → ∀ x, 0 ≤ l.foldl f counts x := by
  induction l with
  | nil => intro counts h; exact h
  | cons a l ih =>
    intro counts h
    rw [List.foldl_cons]
    exact ih _ (hf counts a h)

theorem mapSet_nonneg (counts : String → Int) (d : String) (v : Int) (h : ∀ x, 0 ≤ counts x)
    (hv : 0 ≤ v) : ∀ x, 0 ≤ mapSet counts d v x := by
  intro x
  unfold mapSet
  split_ifs
  · exact hv
  · exact h x

theorem countProcessesByDirEntry_nonneg (fs : ProcFS) (dirs : List String)
    (counts : String → Int) (entry : DirEntry) (h : ∀ x, 0 ≤ counts x) :
    ∀ x, 0 ≤ countProcessesByDirEntry fs dirs counts entry x := by
  unfold countProcessesByDirEntry
  split_ifs
  · exact h
  · cases fs.atoi entry.name with
    | none => exact h
    | some pid =>
      simp only
      split_ifs
      · exact h
      · apply counts_fold_nonneg _ _ _ _ h
        intro c d hc
        split_ifs
        · exact mapSet_nonneg c d _ hc (by have := hc d; omega)
        · exact hc

theorem countProcessesByDir_nonneg (fs : ProcFS) (dirs : List String) :
    ∀ x, 0 ≤ countProcessesByDir fs dirs x := by
  have h0 : ∀ x, 0 ≤ dirs.foldl (fun counts d => mapSet counts d 0) (fun _ => (0 : Int)) x := by
    apply counts_fold_nonneg
    · intro c d hc
      exact mapSet_nonneg c d 0 hc (le_refl 0)
    · intro x
      exact le_refl 0
  unfold countProcessesByDir
  cases fs.readDir with
  | none => exact h0
  | some entries =>
    exact counts_fold_nonneg entries _ (countProcessesByDirEntry_nonneg fs dirs) _ h0

/-- C15: no sample equals the sentinel of its watcher.  Whatever the status
command returned (success, a non-zero exit with or without text on standard
error, any other error), `systemdUnitStatus` returns a non-empty string, the
sentinel of `monitorUnits` being the empty string; whatever `/proc` holds and
whichever directories are watched, `countProcessesByDir` gives every directory
a count of at least 0, never -1, the sentinel `monitorDirs` starts every
watched directory with. -/
theorem samples_never_sentinel (r : CommandOutcome) (fs : ProcFS) (dirs units : List String)
    (d u : String) :
    systemdUnitStatus r ≠ "" ∧
    systemdUnitStatus r ≠ monitorUnitsInit units u ∧
    0 ≤ countProcessesByDir fs dirs d ∧
    countProcessesByDir fs dirs d ≠ -1 ∧
    (d ∈ dirs → monitorDirsInit dirs d = -1 ∧
      countProcessesByDir fs dirs d ≠ monitorDirsInit dirs d) := by
  have h1 := systemdUnitStatus_ne_empty r
  have h2 := countProcessesByDir_nonneg fs dirs d
  refine ⟨h1, ?_, h2, by omega, ?_⟩
  · rw [monitorUnitsInit_eq]
    exact h1
  · intro hd
    rw [monitorDirsInit_of_mem hd]
    exact ⟨rfl, by omega⟩

theorem samples_never_sentinel_witness :
    monitorDirsInit ["/srv/app"] "/srv/app" = -1 ∧
    countProcessesByDir exampleProc ["/srv/app"] "/srv/app" ≠ monitorDirsInit ["/srv/app"] "/srv/app" :=
  (samples_never_sentinel exampleLaunchFailure exampleProc ["/srv/app"] ["nginx.service"]
    "/srv/app" "nginx.service").2.2.2.2 (by decide)

/-! ## Theorems: `trimMessage` -/

theorem trimMessage_short {text : String} (h : text.length ≤ 3800) : trimMessage text = text := by
  have h' : text.toList.length ≤ telegramMaxRunes := h
  unfold trimMessage
  exact if_pos h'

theorem trimMessage_long {text : String} (h : 3800 < text.length) :
    trimMessage text = String.mk (text.toList.take 3800) ++ trimMarker := by
  have h' : ¬ text.toList.length ≤ telegramMaxRunes := Nat.not_le.2 h
  unfold trimMessage
  exact if_neg h'

/-- The suffix of a cut text: a line feed, then U+201A, U+00C4, U+00B6. -/
theorem trimMarker_eq :
    trimMarker = String.mk [Char.ofNat 10, Char.ofNat 0x201A, Char.ofNat 0xC4, Char.ofNat 0xB6] := by
  decide

theorem exampleLongText_length : 3800 < exampleLongText.length := by
  show 3800 < (List.replicate 3801 (Char.ofNat 97)).length
  rw [List.length_replicate]
  exact Nat.lt_succ_self 3800

theorem trimMessage_long_length {text : String} (h : 3800 < text.length) :
    (trimMessage text).length = 3804 := by
  rw [trimMessage_long h, String.length_append]
  have h1 : (String.mk (text.toList.take 3800)).length = 3800 := by
    show (text.toList.take 3800).length = 3800
    rw [List.length_take]
    exact Nat.min_eq_left (Nat.le_of_lt h)
  have h2 : trimMarker.length = 4 := by decide
  rw [h1, h2]

/-- C14 (counterexample): a text of 3801 characters is cut to its first 3800
characters followed by a suffix that is not a line feed and the ellipsis
U+2026: the result has 3804 characters, not 3802. -/
theorem trimMessage_marker_not_ellipsis :
    3800 < exampleLongText.length ∧
    trimMessage exampleLongText ≠
      String.mk (exampleLongText.toList.take 3800) ++
        String.mk [Char.ofNat 10, Char.ofNat 0x2026] ∧
    trimMarker ≠ String.mk [Char.ofNat 10, Char.ofNat 0x2026] ∧
    (trimMessage exampleLongText).length = 3804 ∧
    (String.mk (exampleLongText.toList.take 3800) ++
      String.mk [Char.ofNat 10, Char.ofNat 0x2026]).length = 3802 := by
  have hlen := exampleLongText_length
  have h1 : (String.mk (exampleLongText.toList.take 3800)).length = 3800 := by
    show (exampleLongText.toList.take 3800).length = 3800
    rw [List.length_take]
    exact Nat.min_eq_left (Nat.le_of_lt hlen)
  have h2 : (String.mk [Char.ofNat 10, Char.ofNat 0x2026]).length = 2 := by decide
  have h3 : (String.mk (exampleLongText.toList.take 3800) ++
      String.mk [Char.ofNat 10, Char.ofNat 0x2026]).length = 3802 := by
    rw [String.length_append, h1, h2]
  refine ⟨hlen, ?_, by decide, trimMessage_long_length hlen, h3⟩
  intro h
  have := congrArg String.length h
  rw [trimMessage_long_length hlen, h3] at this
  exact absurd this (by decide)

/-- C14 (amended): `trimMessage` returns a text of at most 3800 characters
unchanged, and otherwise its first 3800 characters followed by the suffix of
the source: a line feed and the three characters U+201A, U+00C4, U+00B6, 3804
characters in all.  The payloads of `SendMessage` and `EditMessage` carry the
text that `trimMessage` returns, so it never has more than 3804 characters. -/
theorem trimMessage_spec (text : String) (chatID : ChatID) (messageID : Int) :
    (text.length ≤ 3800 → trimMessage text = text) ∧
    (3800 < text.length →
      trimMessage text = String.mk (text.toList.take 3800) ++ trimMarker ∧
      (trimMessage text).length = 3804) ∧
    trimMarker = "\n‚Ä¶" ∧
    trimMarker =
      String.mk [Char.ofNat 10, Char.ofNat 0x201A, Char.ofNat 0xC4, Char.ofNat 0xB6] ∧
    trimMarker.length = 4 ∧
    (SendMessagePayload chatID text).Text = trimMessage text ∧
    (EditMessagePayload chatID messageID text).Text = trimMessage text ∧
    (SendMessagePayload chatID text).Text.length ≤ 3804 ∧
    (EditMessagePayload chatID messageID text).Text.length ≤ 3804 := by
  have hbound : (trimMessage text).length ≤ 3804 := by
    by_cases h : text.length ≤ 3800
    · rw [trimMessage_short h]
      omega
    · rw [trimMessage_long_length (Nat.not_le.1 h)]
  exact ⟨trimMessage_short, fun h => ⟨trimMessage_long h, trimMessage_long_length h⟩, rfl,
    trimMarker_eq, by decide, rfl, rfl, hbound, hbound⟩

theorem trimMessage_spec_witness :
    trimMessage "report" = "report" ∧
    (trimMessage exampleLongText =
        String.mk (exampleLongText.toList.take 3800) ++ trimMarker ∧
      (trimMessage exampleLongText).length = 3804) :=
  ⟨(trimMessage_spec "report" 7 42).1 (by decide),
   (trimMessage_spec exampleLongText 7 42).2.1 exampleLongText_length⟩

/-! ## Theorems: the fan-out -/

theorem broadcastLoop_fold (send : ChatID → String → Except String Int) (msg : String)
    (l : List ChatID) :
    ∀ st : List Effect × List (ChatID × Except String Int),
      l.foldl
          (fun st userID =>
            (st.1 ++ [Effect.sendMessage userID msg], st.2 ++ [(userID, send userID msg)]))
          st =
        (st.1 ++ l.map (fun u => Effect.sendMessage u msg),
          st.2 ++ l.map (fun u => (u, send u msg))) := by
  induction l with
  | nil => intro st; simp
  | cons a l ih =>
    intro st
    rw [List.foldl_cons, ih]
    simp

theorem broadcastLoop_eq (send : ChatID → String → Except String Int) (allowed : List ChatID)
    (msg : String) :
    broadcastLoop send allowed msg =
      (allowed.map (fun u => Effect.sendMessage u msg), allowed.map (fun u => (u, send u msg))) := by
  unfold broadcastLoop
  rw [broadcastLoop_fold]
  simp

/-- C13: the fan-out loop, whatever `bot.SendMessage` answers.  The calls made
are those of `broadcast`, the block every watcher sends: one per entry of the
allowed list, in order, each with the same text and none else, so a failed
send neither stops the loop nor is repeated and nothing but the calls comes
out of it.  With the users distinct (they are the keys of a map) every
allowed user gets exactly one call, and when exactly one send fails the other
users' sends, one fewer than the users, all succeed. -/
theorem broadcast_fanout_spec (send : ChatID → String → Except String Int)
    (allowed : List ChatID) (msg : String) :
    (broadcastLoop send allowed msg).1 = broadcast allowed msg ∧
    (broadcastLoop send allowed msg).2 = allowed.map (fun u => (u, send u msg)) ∧
    (broadcastLoop send allowed msg).1.length = allowed.length ∧
    (∀ e ∈ (broadcastLoop send allowed msg).1, ∃ u ∈ allowed, e = Effect.sendMessage u msg) ∧
    (∀ u, (broadcastLoop send allowed msg).1.count (Effect.sendMessage u msg) =
      allowed.count u) ∧
    (allowed.Nodup →
      (∀ u ∈ allowed, (broadcastLoop send allowed msg).1.count (Effect.sendMessage u msg) = 1) ∧
      ∀ u0 ∈ allowed, (send u0 msg).isOk = false →
        (∀ u ∈ allowed, u ≠ u0 → (send u msg).isOk = true) →
        ((broadcastLoop send allowed msg).2.filter (fun a => a.2.isOk)).length =
            allowed.length - 1 ∧
          ∀ u ∈ allowed, u ≠ u0 →
            (u, send u msg) ∈ (broadcastLoop send allowed msg).2.filter (fun a => a.2.isOk)) := by
  rw [broadcastLoop_eq]
  have hinj : Function.Injective (fun u : ChatID => Effect.sendMessage u msg) := by
    intro a b h
    simpa using h
  have hcount : ∀ u, (allowed.map (fun u => Effect.sendMessage u msg)).count
      (Effect.sendMessage u msg) = allowed.count u :=
    fun u => List.count_map_of_injective allowed _ hinj u
  refine ⟨rfl, rfl, by simp, ?_, hcount, ?_⟩
  · intro e he
    obtain ⟨u, hu, rfl⟩ := List.mem_map.1 he
    exact ⟨u, hu, rfl⟩
  · intro hnd
    refine ⟨fun u hu => by rw [hcount u]; exact List.count_eq_one_of_mem hnd hu, ?_⟩
    intro u0 hu0 hfail hok
    have hfilter : (allowed.map (fun u => (u, send u msg))).filter (fun a => a.2.isOk) =
        (allowed.erase u0).map (fun u => (u, send u msg)) := by
      rw [List.filter_map, hnd.erase_eq_filter u0]
      congr 1
      apply List.filter_congr
      intro u hu
      by_cases h : u = u0
      · subst h
        simp [hfail]
      · simp [hok u hu h, h]
    simp only
    rw [hfilter]
    refine ⟨by rw [List.length_map, List.length_erase_of_mem hu0], ?_⟩
    intro u hu hne
    exact List.mem_map.2 ⟨u, (List.mem_erase_of_ne hne).2 hu, rfl⟩

theorem broadcast_fanout_spec_witness :
    (broadcastLoop exampleSend [11, 12, 13] "alert").1.count (Effect.sendMessage 11 "alert") = 1 ∧
    ((broadcastLoop exampleSend [11, 12, 13] "alert").2.filter (fun a => a.2.isOk)).length =
      [11, 12, 13].length - 1 ∧
    (13, exampleSend 13 "alert") ∈
      (broadcastLoop exampleSend [11, 12, 13] "alert").2.filter (fun a => a.2.isOk) :=
  have h := (broadcast_fanout_spec exampleSend [11, 12, 13] "alert").2.2.2.2.2 (by decide)
  have h2 := h.2 12 (by decide) (by decide) (by decide)
  ⟨h.1 11 (by decide), h2.1, h2.2 13 (by decide) (by decide)⟩

/-! ## Theorems: the reboot watcher -/

/-- After a round of `monitorReboot` that read a boot time, that boot time is
the baseline and `first` is off. -/
theorem monitorRebootStep_read (format : Time → String) (allowed : AllowedMap)
    (st : RebootState × List Effect) (current : Time) (hz : current.IsZero = false) :
    (monitorRebootStep format allowed st current).1 = { lastBoot := current, first := false } := by
  unfold monitorRebootStep
  by_cases h : current = st.1.lastBoot
  · rw [h] at hz
    simp [hz, h]
  · simp [hz, h]

theorem monitorRebootStep_changed (format : Time → String) (allowed : AllowedMap)
    (st : RebootState × List Effect) (current : Time) (hz : current.IsZero = false)
    (hne : current ≠ st.1.lastBoot) :
    monitorRebootStep format allowed st current =
      ({ lastBoot := current, first := false },
        st.2 ++ if st.1.first = false then
          broadcast (allowed.range st.2) (rebootMsg format current) else []) := by
  unfold monitorRebootStep
  cases hf : st.1.first <;> simp [hz, hne, hf]

theorem monitorReboot_append (format : Time → String) (allowed : AllowedMap) (boot : Time)
    (xs ys : List Time) :
    monitorReboot format allowed boot (xs ++ ys) =
      ys.foldl (monitorRebootStep format allowed) (monitorReboot format allowed boot xs) := by
  simp [monitorReboot, List.foldl_append]

/-- C12 (counterexample): the boot time read at start-up and the first one
read in the loop are both read successfully and differ, yet nothing is sent;
the baseline becomes the new boot time. -/
theorem monitorReboot_first_loop_sample_silent :
    exampleBoot.IsZero = false ∧ exampleBootLater.IsZero = false ∧
    exampleBootLater ≠ exampleBoot ∧ exampleAllowed.keys = [11, 12] ∧
    monitorReboot exampleFormat exampleAllowed exampleBoot [exampleBootLater] =
      ({ lastBoot := exampleBootLater, first := false }, []) := by
  refine ⟨by decide, by decide, by decide, rfl, ?_⟩
  have hne : exampleBootLater ≠ exampleBoot := by decide
  have hz : exampleBootLater.IsZero = false := by decide
  simp [monitorReboot, monitorRebootStep, monitorRebootInit, hne, hz]

/-- C12 (amended): a round of `monitorReboot`, after `sent`, that reads a boot
time different from the baseline makes it the baseline, and sends the reboot
alert, whose text is the one of the source and ends with the new boot time as
`format` prints it, to the allowed users, once each in the order of this
range, exactly when a boot time was read in the loop before (`first` is off);
the first boot time read in the loop sends nothing.  So for two boot times
read in the loop one after the other, with any failed reads between them, the
second one, when it differs, is announced and becomes the baseline. -/
theorem monitorReboot_alert_spec (format : Time → String) (allowed : AllowedMap)
    (st : RebootState × List Effect) (current : Time) (hz : current.IsZero = false)
    (hne : current ≠ st.1.lastBoot) :
    (st.1.first = false →
      monitorRebootStep format allowed st current =
        ({ lastBoot := current, first := false },
          st.2 ++ broadcast (allowed.range st.2) (rebootMsg format current))) ∧
    (st.1.first = true →
      monitorRebootStep format allowed st current =
        ({ lastBoot := current, first := false }, st.2)) ∧
    (∀ v ∈ allowed.keys,
      (broadcast (allowed.range st.2) (rebootMsg format current)).count
        (Effect.sendMessage v (rebootMsg format current)) = 1) ∧
    (broadcast (allowed.range st.2) (rebootMsg format current)).length = allowed.keys.length ∧
    rebootMsg format current = "üîÑ <b>–û–±–Ω–∞—Ä—É–∂–µ–Ω–∞ –ø–µ—Ä–µ–∑–∞–≥—Ä—É–∑–∫–∞ —Å–µ—Ä–≤–µ—Ä–∞!</b>\n\n" ++
      "‚è± –í—Ä–µ–º—è –ø–µ—Ä–µ–∑–∞–≥—Ä—É–∑–∫–∏: " ++ format current ∧
    (∀ (boot : Time) (pre fails : List Time) (a : Time), a.IsZero = false →
      (∀ t ∈ fails, t.IsZero = true) → current ≠ a →
      monitorReboot format allowed boot (pre ++ [a] ++ fails ++ [current]) =
        ({ lastBoot := current, first := false },
          (monitorReboot format allowed boot (pre ++ [a])).2 ++
            broadcast (allowed.range (monitorReboot format allowed boot (pre ++ [a])).2)
              (rebootMsg format current))) := by
  have hc := monitorRebootStep_changed format allowed st current hz hne
  refine ⟨?_, ?_, fun v hv => allowed.count_broadcast st.2 _ hv, allowed.length_broadcast st.2 _,
    rfl, ?_⟩
  · intro hf
    rw [hc, if_pos hf]
  · intro hf
    rw [hc, if_neg (by simp [hf])]
    simp
  · intro boot pre fails a ha hfails hca
    rw [monitorReboot_append, List.foldl_cons, List.foldl_nil, monitorReboot_append,
      monitorReboot_fold_unread format allowed fails hfails]
    have hstate : (monitorReboot format allowed boot (pre ++ [a])).1 =
        { lastBoot := a, first := false } := by
      rw [monitorReboot_append, List.foldl_cons, List.foldl_nil]
      exact monitorRebootStep_read format allowed _ a ha
    have hc' := monitorRebootStep_changed format allowed
      (monitorReboot format allowed boot (pre ++ [a])) current hz (by rw [hstate]; exact hca)
    rw [hc', hstate]
    simp

theorem monitorReboot_alert_spec_witness :
    monitorRebootStep exampleFormat exampleAllowed
        ({ lastBoot := exampleBoot, first := false }, []) exampleBootLater =
      ({ lastBoot := exampleBootLater, first := false },
        [] ++ broadcast (exampleAllowed.range []) (rebootMsg exampleFormat exampleBootLater)) ∧
    (broadcast (exampleAllowed.range []) (rebootMsg exampleFormat exampleBootLater)).count
      (Effect.sendMessage 12 (rebootMsg exampleFormat exampleBootLater)) = 1 ∧
    monitorReboot exampleFormat exampleAllowed Time.zero
        ([] ++ [exampleBoot] ++ [Time.zero] ++ [exampleBootLater]) =
      ({ lastBoot := exampleBootLater, first := false },
        (monitorReboot exampleFormat exampleAllowed Time.zero ([] ++ [exampleBoot])).2 ++
          broadcast
            (exampleAllowed.range
              (monitorReboot exampleFormat exampleAllowed Time.zero ([] ++ [exampleBoot])).2)
            (rebootMsg exampleFormat exampleBootLater)) :=
  have h := monitorReboot_alert_spec exampleFormat exampleAllowed
    ({ lastBoot := exampleBoot, first := false }, []) exampleBootLater (by decide) (by decide)
  ⟨h.1 rfl, h.2.2.1 12 (by decide),
    h.2.2.2.2.2 Time.zero [] [Time.zero] exampleBoot (by decide) (by decide) (by decide)⟩

/-! ## Theorems: a read that fails -/

theorem countProcessesByDir_unreadable (fs : ProcFS) (dirs : List String) (d : String)
    (h : fs.readDir = none) : countProcessesByDir fs dirs d = 0 := by
  have h0 : ∀ (l : List String) (counts : String → Int), (∀ x, counts x = 0) →
      ∀ x, l.foldl (fun counts d => mapSet counts d 0) counts x = 0 := by
    intro l
    induction l with
    | nil => intro counts hc; exact hc
    | cons a l ih =>
      intro counts hc
      rw [List.foldl_cons]
      apply ih
      intro x
      unfold mapSet
      split_ifs
      · rfl
      · exact hc x
  unfold countProcessesByDir
  rw [h]
  exact h0 dirs _ (fun _ => rfl) d

theorem monitorReboot_unread_step (format : Time → String) (allowed : AllowedMap)
    (st : RebootState × List Effect) (current : Time) (hz : current.IsZero = true) :
    monitorRebootStep format allowed st current = st := by
  simp [monitorRebootStep, hz]

/-- A step of `monitorDirs` on a tick whose `/proc` cannot be listed. -/
theorem monitorDirsStep_unreadable (allowed : AllowedMap) (fs : ProcFS) (dirs : List String)
    (prev : String → Int) (sent : List Effect) (d : String) (h : fs.readDir = none) :
    (monitorDirsStep allowed (countProcessesByDir fs dirs) (prev, sent) d).1 d = 0 ∧
    (monitorDirsStep allowed (countProcessesByDir fs dirs) (prev, sent) d).2 =
      sent ++ if 0 < prev d then broadcast (allowed.range sent) (dirGoneMsg d) else [] := by
  have hc := countProcessesByDir_unreadable fs dirs d h
  constructor
  · simp [monitorDirsStep, mapSet, hc]
  · by_cases hp : 0 < prev d
    · have hp' : prev d ≥ 0 := le_of_lt hp
      simp [monitorDirsStep, hc, hp, hp']
    · by_cases hp' : prev d ≥ 0
      · have h0 : prev d = 0 := by omega
        simp [monitorDirsStep, hc, h0]
      · simp [monitorDirsStep, hc, hp, hp']

/-- A step of `monitorUnits` whose status is "unknown". -/
theorem monitorUnitsStep_unknown (allowed : AllowedMap) (prev : String → String)
    (sent : List Effect) (u : String) :
    (monitorUnitsStep allowed (prev, sent) (u, "unknown")).1 u = "unknown" ∧
    (monitorUnitsStep allowed (prev, sent) (u, "unknown")).2 =
      sent ++ if prev u ≠ "" ∧ prev u ≠ "unknown" then
        broadcast (allowed.range sent) (unitDownMsg u "unknown") else [] := by
  constructor
  · simp [monitorUnitsStep, mapSet]
  · rw [monitorUnitsStep_effects]
    by_cases h : prev u ≠ "" ∧ prev u ≠ "unknown"
    · have h' : prev u ≠ "" ∧ "unknown" ≠ prev u := ⟨h.1, fun e => h.2 e.symm⟩
      rw [if_pos h, if_pos h', if_pos (by decide)]
    · have h' : ¬ (prev u ≠ "" ∧ "unknown" ≠ prev u) := fun e => h ⟨e.1, fun e' => e.2 e'.symm⟩
      rw [if_neg h, if_neg h']

/-- C11 (counterexample): a directory is watched with one process, then comes
a tick on which `/proc` cannot be listed: the "processes gone" alert is sent
to both allowed users and the baseline becomes 0.  A unit is sampled "active",
then comes a tick on which the status command cannot be started: the alert
ending with "unknown" is sent to both and the baseline becomes "unknown". -/
theorem read_failure_is_sampled :
    exampleProcUnreadable.readDir = none ∧
    (monitorDirs exampleAllowed ["/srv/app"] [countProcessesByDir exampleProc ["/srv/app"]]).1
      "/srv/app" = 1 ∧
    (monitorDirs exampleAllowed ["/srv/app"] [countProcessesByDir exampleProc ["/srv/app"]]).2 =
      [] ∧
    (monitorDirs exampleAllowed ["/srv/app"] [countProcessesByDir exampleProc ["/srv/app"],
        countProcessesByDir exampleProcUnreadable ["/srv/app"]]).2 =
      [Effect.sendMessage 11 (dirGoneMsg "/srv/app"),
        Effect.sendMessage 12 (dirGoneMsg "/srv/app")] ∧
    (monitorDirs exampleAllowed ["/srv/app"] [countProcessesByDir exampleProc ["/srv/app"],
        countProcessesByDir exampleProcUnreadable ["/srv/app"]]).1 "/srv/app" = 0 ∧
    dirGoneMsg "/srv/app" = "‚ö†Ô∏è <b>–ù–µ—Ç –ø—Ä–æ—Ü–µ—Å—Å–æ–≤ –∏–∑ –∫–∞—Ç–∞–ª–æ–≥–∞</b>\n\n<code>" ++ "/srv/app" ++ "</code>" ∧
    systemdUnitStatus exampleActive = "active" ∧
    systemdUnitStatus exampleLaunchFailure = "unknown" ∧
    (monitorUnits exampleAllowed ["nginx.service"] [fun _ => systemdUnitStatus exampleActive,
        fun _ => systemdUnitStatus exampleLaunchFailure]).2 =
      [Effect.sendMessage 11 (unitDownMsg "nginx.service" "unknown"),
        Effect.sendMessage 12 (unitDownMsg "nginx.service" "unknown")] ∧
    (monitorUnits exampleAllowed ["nginx.service"] [fun _ => systemdUnitStatus exampleActive,
        fun _ => systemdUnitStatus exampleLaunchFailure]).1 "nginx.service" = "unknown" ∧
    unitDownMsg "nginx.service" "unknown" =
      "‚ö†Ô∏è <b>Unit –Ω–µ –∞–∫—Ç–∏–≤–µ–Ω</b>\n\n<code>" ++ "nginx.service" ++ "</code>\n–°—Ç–∞—Ç—É—Å: " ++ "unknown" := by
  refine ⟨rfl, ?_, ?_, ?_, ?_, rfl, ?_, ?_, ?_, ?_, rfl⟩ <;> decide

/-- C11 (amended): `monitorReboot` skips a round whose boot time cannot be
read: baseline and `first` stay as they are and nothing is sent, so the run
goes on as if the failed rounds had not happened.  `monitorDirs` and
`monitorUnits` do not see a failed read: when `/proc` cannot be listed
`countProcessesByDir` gives every directory the count 0, and when the status
command cannot be run and left no output `systemdUnitStatus` gives "unknown";
the tick treats them as samples.  Whatever the baseline was it becomes 0 or
"unknown"; the "processes gone" alert is sent, to the allowed users once
each, exactly for a positive baseline, and the alert whose text ends with
"unknown" exactly for a sampled baseline other than "unknown". -/
theorem read_failure_spec (format : Time → String) (allowed : AllowedMap) :
    (∀ (st : RebootState × List Effect) (current : Time), current.IsZero = true →
      monitorRebootStep format allowed st current = st) ∧
    (∀ (boot : Time) (pre fails post : List Time), (∀ t ∈ fails, t.IsZero = true) →
      monitorReboot format allowed boot (pre ++ fails ++ post) =
        monitorReboot format allowed boot (pre ++ post)) ∧
    (∀ (fs : ProcFS) (dirs : List String) (d : String), fs.readDir = none →
      countProcessesByDir fs dirs d = 0) ∧
    (∀ (fs : ProcFS) (dirs : List String) (prev : String → Int) (sent : List Effect)
      (d : String), fs.readDir = none →
      (monitorDirsStep allowed (countProcessesByDir fs dirs) (prev, sent) d).1 d = 0 ∧
      (monitorDirsStep allowed (countProcessesByDir fs dirs) (prev, sent) d).2 =
        sent ++ if 0 < prev d then broadcast (allowed.range sent) (dirGoneMsg d) else []) ∧
    (∀ out : String, stringsTrimSpace out = "" →
      systemdUnitStatus { out := out, err := some ExecErr.other } = "unknown") ∧
    (∀ (prev : String → String) (sent : List Effect) (u : String) (r : CommandOutcome),
      systemdUnitStatus r = "unknown" →
      (monitorUnitsStep allowed (prev, sent) (u, systemdUnitStatus r)).1 u = "unknown" ∧
      (monitorUnitsStep allowed (prev, sent) (u, systemdUnitStatus r)).2 =
        sent ++ if prev u ≠ "" ∧ prev u ≠ "unknown" then
          broadcast (allowed.range sent) (unitDownMsg u "unknown") else []) ∧
    (∀ (sent : List Effect) (msg : String), ∀ v ∈ allowed.keys,
      (broadcast (allowed.range sent) msg).count (Effect.sendMessage v msg) = 1) ∧
    (∀ d : String, dirGoneMsg d = "‚ö†Ô∏è <b>–ù–µ—Ç –ø—Ä–æ—Ü–µ—Å—Å–æ–≤ –∏–∑ –∫–∞—Ç–∞–ª–æ–≥–∞</b>\n\n<code>" ++ d ++ "</code>") ∧
    (∀ u : String,
      unitDownMsg u "unknown" = "‚ö†Ô∏è <b>Unit –Ω–µ –∞–∫—Ç–∏–≤–µ–Ω</b>\n\n<code>" ++ u ++ "</code>\n–°—Ç–∞—Ç—É—Å: " ++ "unknown") := by
  refine ⟨monitorReboot_unread_step format allowed, ?_, countProcessesByDir_unreadable, ?_, ?_, ?_,
    fun sent msg v hv => allowed.count_broadcast sent msg hv, fun _ => rfl, fun _ => rfl⟩
  · intro boot pre fails post hf
    rw [monitorReboot_append, monitorReboot_append, monitorReboot_fold_unread format allowed fails hf,
      monitorReboot_append]
  · intro fs dirs prev sent d hr
    exact monitorDirsStep_unreadable allowed fs dirs prev sent d hr
  · intro out ho
    simp [systemdUnitStatus, ho]
  · intro prev sent u r hr
    rw [hr]
    exact monitorUnitsStep_unknown allowed prev sent u

theorem read_failure_spec_witness :
    monitorRebootStep exampleFormat exampleAllowed
        ({ lastBoot := exampleBoot, first := false }, []) Time.zero =
      ({ lastBoot := exampleBoot, first := false }, []) ∧
    monitorReboot exampleFormat exampleAllowed exampleBoot
        ([exampleBoot] ++ [Time.zero] ++ [exampleBootLater]) =
      monitorReboot exampleFormat exampleAllowed exampleBoot
        ([exampleBoot] ++ [exampleBootLater]) ∧
    countProcessesByDir exampleProcUnreadable ["/srv/app"] "/srv/app" = 0 ∧
    (monitorDirsStep exampleAllowed (countProcessesByDir exampleProcUnreadable ["/srv/app"])
        (fun _ => -1, []) "/srv/app").1 "/srv/app" = 0 ∧
    systemdUnitStatus { out := "", err := some ExecErr.other } = "unknown" ∧
    (monitorUnitsStep exampleAllowed (fun _ => "", [])
        ("nginx.service", systemdUnitStatus exampleLaunchFailure)).1 "nginx.service" =
      "unknown" ∧
    (broadcast (exampleAllowed.range []) "alert").count (Effect.sendMessage 12 "alert") = 1 :=
  have h := read_failure_spec exampleFormat exampleAllowed
  ⟨h.1 _ Time.zero (by decide),
   h.2.1 exampleBoot [exampleBoot] [Time.zero] [exampleBootLater] (by decide),
   h.2.2.1 exampleProcUnreadable ["/srv/app"] "/srv/app" rfl,
   (h.2.2.2.1 exampleProcUnreadable ["/srv/app"] (fun _ => -1) [] "/srv/app" rfl).1,
   h.2.2.2.2.1 "" (by decide),
   (h.2.2.2.2.2.1 (fun _ => "") [] "nginx.service" exampleLaunchFailure (by decide)).1,
   h.2.2.2.2.2.2.1 [] "alert" 12 (by decide)⟩

end ServMonitor
